import Mathlib

/-!
Verification of the SuperStudent core simulation logic: a shallow embedding of
the damage/shatter state machine, screen-shake controller, particle stores,
spatial-grid collision broad-phase, pairwise collision resolver and
target-rotation controller, with theorems checking the specification's claims.

Sources embedded: src/utils/effects.py, src/SuperStudent.py,
src/levels/colors_level.py, src/colors_level.py, src/utils/particle_system.py,
src/systems/particle.py, src/settings.py.
-/

/-! ## Settings constants (src/settings.py) -/

def MAX_CRACKS : Nat := 15

def CHECKPOINT_TRIGGER : Nat := 10

def DOT_RADIUS : ℚ := 24

def DOT_SPEED_REDUCTION : ℚ := 0.8

def COLLISION_GRID_SIZE : ℚ := 100

def NUM_COLORS : Nat := 5  -- length of COLORS_LIST / COLOR_NAMES

/-! ## Effects (src/utils/effects.py)

State of the Effects object restricted to the fields the claims touch:
the glass-crack list is modelled by its length (crack geometry is random
decoration irrelevant to counting), plus shatter and shake state. -/

namespace Effects

structure State where
  glass_cracks : Nat
  background_shattered : Bool
  shatter_timer : Nat
  shake_duration : Int
  shake_magnitude : Int
  deriving Repr, DecidableEq

/-- Fresh Effects object: empty crack list, not shattered, no shake. -/
def initState : State :=
  { glass_cracks := 0, background_shattered := false, shatter_timer := 0
    shake_duration := 0, shake_magnitude := 0 }

/-- Effects.start_shake: assigns both counters unconditionally. -/
def start_shake (s : State) (duration magnitude : Int) : State :=
  { s with shake_duration := duration, shake_magnitude := magnitude }

/-- Effects.create_crack: returns False without appending when already at
MAX_CRACKS; otherwise appends one crack and returns True iff the new count
reached MAX_CRACKS. -/
def create_crack (s : State) : Bool × State :=
  if MAX_CRACKS ≤ s.glass_cracks then (false, s)
  else
    let s' := { s with glass_cracks := s.glass_cracks + 1 }
    (decide (MAX_CRACKS ≤ s'.glass_cracks), s')

/-- Effects.shatter_screen: latches background_shattered, starts the
countdown (default 600 frames) and adds screen shake. -/
def shatter_screen (s : State) (duration : Nat := 600) : State :=
  start_shake
    { s with background_shattered := true, shatter_timer := duration } 10 15

/-- A qualifying miss as handled by the colors level (handle_event /
run_colors_level): create_crack, and if it reports the threshold was
reached, trigger shatter_screen. -/
def miss (s : State) : State :=
  let r := create_crack s
  if r.1 then shatter_screen r.2 else r.2

/-- Effects.update restricted to the shatter countdown: while shattered with
a positive timer, decrement it; on reaching zero un-shatter and clear all
cracks.  (Explosion/laser updates do not touch these fields.) -/
def update (s : State) : State :=
  if s.background_shattered ∧ 0 < s.shatter_timer then
    let t := s.shatter_timer - 1
    if t = 0 then
      { s with shatter_timer := 0, background_shattered := false,
               glass_cracks := 0 }
    else { s with shatter_timer := t }
  else s

/-- Events driving the Effects state: a qualifying miss, or one frame tick. -/
inductive Ev
  | miss
  | tick
  deriving Repr, DecidableEq

def step (s : State) : Ev → State
  | Ev.miss => miss s
  | Ev.tick => update s

/-- Run a trace of events from the fresh Effects object. -/
def run (evs : List Ev) : State :=
  evs.foldl step initState

/-- Case analysis of a qualifying miss: no-op at the threshold, shatter on
the miss that reaches it, plain increment below it. -/
theorem miss_eq (s : State) :
    miss s =
      if MAX_CRACKS ≤ s.glass_cracks then s
      else if s.glass_cracks + 1 = MAX_CRACKS then
        shatter_screen { s with glass_cracks := s.glass_cracks + 1 }
      else { s with glass_cracks := s.glass_cracks + 1 } := by
  unfold miss create_crack
  by_cases hc : MAX_CRACKS ≤ s.glass_cracks
  · simp [hc]
  · simp only [if_neg hc]
    by_cases ht : MAX_CRACKS ≤ s.glass_cracks + 1
    · have h15 : s.glass_cracks + 1 = MAX_CRACKS := by omega
      simp [ht, h15]
    · have h15 : ¬(s.glass_cracks + 1 = MAX_CRACKS) := by omega
      simp [ht, h15]

/-- The reachable-state invariant: the crack count is bounded by the
threshold, and while shattered it sits exactly at the threshold. -/
def Inv (s : State) : Prop :=
  s.glass_cracks ≤ MAX_CRACKS ∧
    (s.background_shattered = true → s.glass_cracks = MAX_CRACKS)

theorem inv_initState : Inv initState := by
  constructor
  · simp [initState, MAX_CRACKS]
  · intro h; simp [initState] at h

theorem inv_step (s : State) (e : Ev) (h : Inv s) : Inv (step s e) := by
  obtain ⟨h1, h2⟩ := h
  cases e with
  | miss =>
      show Inv (miss s)
      rw [miss_eq]
      by_cases hc : MAX_CRACKS ≤ s.glass_cracks
      · rw [if_pos hc]; exact ⟨h1, h2⟩
      · rw [if_neg hc]
        by_cases ht : s.glass_cracks + 1 = MAX_CRACKS
        · rw [if_pos ht]
          exact ⟨le_of_eq ht, fun _ => ht⟩
        · rw [if_neg ht]
          refine ⟨show s.glass_cracks + 1 ≤ MAX_CRACKS by omega, fun hb => ?_⟩
          exact absurd (h2 hb) (by omega)
  | tick =>
      simp only [step, update]
      by_cases hb : s.background_shattered = true ∧ 0 < s.shatter_timer
      · simp only [if_pos hb]
        by_cases ht : s.shatter_timer - 1 = 0
        · rw [if_pos ht]
          exact ⟨Nat.zero_le _, fun h => by cases h⟩
        · simp only [if_neg ht]
          exact ⟨h1, h2⟩
      · simp only [if_neg hb]
        exact ⟨h1, h2⟩

theorem inv_run (evs : List Ev) : Inv (run evs) := by
  suffices h : ∀ s, Inv s → Inv (evs.foldl step s) from h initState inv_initState
  induction evs with
  | nil => intro s hs; exact hs
  | cons e rest ih =>
      intro s hs
      exact ih (step s e) (inv_step s e hs)

/-- When already shattered the crack list is full, so a further qualifying
miss leaves the whole state unchanged. -/
theorem miss_of_shattered (s : State) (h : Inv s)
    (hb : s.background_shattered = true) : miss s = s := by
  have hc : s.glass_cracks = MAX_CRACKS := h.2 hb
  simp [miss, create_crack, hc]

end Effects

/-- C1: Starting from an empty crack list: along every event trace, (a) the
crack count never exceeds MAX_CRACKS = 15; (b) a qualifying miss appends at
most one crack and never decreases the count; (c) the count resets to zero
only on the tick that completes the shatter countdown (shattered, timer
exactly 1), and that tick resets it fully to zero; (d) from an unshattered
state a miss triggers the shattered state exactly when it makes the count
reach exactly the threshold; (e) a qualifying miss while already shattered
changes nothing, so it cannot re-trigger a second shatter cycle before
recovery completes. -/
theorem effects_crack_shatter_cycle (evs : List Effects.Ev) :
    (Effects.run evs).glass_cracks ≤ MAX_CRACKS ∧
    ((Effects.miss (Effects.run evs)).glass_cracks =
        (Effects.run evs).glass_cracks ∨
      (Effects.miss (Effects.run evs)).glass_cracks =
        (Effects.run evs).glass_cracks + 1) ∧
    (Effects.run evs).glass_cracks ≤
      (Effects.miss (Effects.run evs)).glass_cracks ∧
    (∀ e : Effects.Ev,
      (Effects.step (Effects.run evs) e).glass_cracks <
          (Effects.run evs).glass_cracks →
        e = Effects.Ev.tick ∧
        (Effects.run evs).background_shattered = true ∧
        (Effects.run evs).shatter_timer = 1 ∧
        (Effects.step (Effects.run evs) e).glass_cracks = 0) ∧
    ((Effects.run evs).background_shattered = false →
      ((Effects.miss (Effects.run evs)).background_shattered = true ↔
        (Effects.run evs).glass_cracks + 1 = MAX_CRACKS)) ∧
    ((Effects.run evs).background_shattered = true →
      Effects.miss (Effects.run evs) = Effects.run evs) := by
  set s := Effects.run evs with hs
  have hinv := Effects.inv_run evs
  rw [← hs] at hinv
  obtain ⟨hbound, hshat⟩ := hinv
  refine ⟨hbound, ?_, ?_, ?_, ?_, ?_⟩
  · rw [Effects.miss_eq]
    by_cases hc : MAX_CRACKS ≤ s.glass_cracks
    · left; rw [if_pos hc]
    · rw [if_neg hc]
      by_cases ht : s.glass_cracks + 1 = MAX_CRACKS
      · right; rw [if_pos ht]; rfl
      · right; rw [if_neg ht]
  · rw [Effects.miss_eq]
    by_cases hc : MAX_CRACKS ≤ s.glass_cracks
    · rw [if_pos hc]
    · rw [if_neg hc]
      by_cases ht : s.glass_cracks + 1 = MAX_CRACKS
      · rw [if_pos ht]; exact Nat.le_succ _
      · rw [if_neg ht]; exact Nat.le_succ _
  · intro e hlt
    cases e with
    | miss =>
        exfalso
        have hm := hlt
        rw [show Effects.step s Effects.Ev.miss = Effects.miss s from rfl,
          Effects.miss_eq] at hm
        by_cases hc : MAX_CRACKS ≤ s.glass_cracks
        · rw [if_pos hc] at hm
          exact absurd hm (lt_irrefl _)
        · rw [if_neg hc] at hm
          by_cases ht : s.glass_cracks + 1 = MAX_CRACKS
          · rw [if_pos ht] at hm
            have hm' : s.glass_cracks + 1 < s.glass_cracks := hm
            omega
          · rw [if_neg ht] at hm
            have hm' : s.glass_cracks + 1 < s.glass_cracks := hm
            omega
    | tick =>
        have hm := hlt
        rw [show Effects.step s Effects.Ev.tick = Effects.update s from rfl]
          at hm ⊢
        refine ⟨rfl, ?_⟩
        unfold Effects.update at hm ⊢
        by_cases hb : s.background_shattered = true ∧ 0 < s.shatter_timer
        · rw [if_pos hb] at hm ⊢
          by_cases ht : s.shatter_timer - 1 = 0
          · rw [if_pos ht] at hm ⊢
            refine ⟨hb.1, by omega, rfl⟩
          · rw [if_neg ht] at hm
            have hm' : s.glass_cracks < s.glass_cracks := hm
            omega
        · rw [if_neg hb] at hm
          omega
  · intro hnb
    rw [Effects.miss_eq]
    by_cases hc : MAX_CRACKS ≤ s.glass_cracks
    · rw [if_pos hc, hnb]
      constructor
      · intro h; cases h
      · intro heq; exact absurd heq (by omega)
    · rw [if_neg hc]
      by_cases ht : s.glass_cracks + 1 = MAX_CRACKS
      · rw [if_pos ht]
        exact ⟨fun _ => ht, fun _ => rfl⟩
      · rw [if_neg ht]
        constructor
        · intro habs
          have habs' : s.background_shattered = true := habs
          rw [hnb] at habs'
          exact Bool.noConfusion habs'
        · intro heq; exact absurd heq ht
  · intro hb
    exact Effects.miss_of_shattered s ⟨hbound, hshat⟩ hb

/-- C7 counterexample: with an in-flight shake of remaining duration 10, the
call start_shake(3, 5) leaves the remaining duration at 3, not max(10, 3). -/
theorem start_shake_not_max_counterexample :
    ¬ ((Effects.start_shake
          { glass_cracks := 0, background_shattered := false,
            shatter_timer := 0, shake_duration := 10, shake_magnitude := 5 }
          3 5).shake_duration =
        max (10 : Int) 3) := by
  decide

/-- SuperStudent.create_explosion shake line: the only never-shorten shake
update in the source, shake_duration = max(shake_duration, 10). -/
def create_explosion_shake (shake_duration : Int) : Int :=
  max shake_duration 10

/-- C7 (amended): Effects.start_shake(d, m) overwrites both counters
unconditionally, so a call with d below the remaining duration shortens the
in-flight shake; the never-shorten behaviour max(r, 10) exists only in the
global create_explosion path of src/SuperStudent.py. -/
theorem start_shake_overwrites (s : Effects.State) (d m : Int) :
    (Effects.start_shake s d m).shake_duration = d ∧
    (Effects.start_shake s d m).shake_magnitude = m ∧
    ∀ r : Int, create_explosion_shake r = max r 10 := by
  refine ⟨?_, ?_, ?_⟩
  · rfl
  · rfl
  · intro r; rfl

/-! ## ColorsLevel (src/levels/colors_level.py, src/colors_level.py)

Dots are dictionaries {x, y, dx, dy, color, radius, target, alive}; color
values are abstracted to their index in COLORS_LIST (which has five distinct
entries, so index tracking is faithful).  Distances computed by math.hypot
are compared on squares, which is equivalent for nonnegative radii. -/

namespace ColorsLevel

structure Dot where
  x : ℚ
  y : ℚ
  dx : ℚ
  dy : ℚ
  color : Nat
  radius : ℚ
  target : Bool
  alive : Bool
  deriving Repr, DecidableEq

/-- One dot passes the click test of handle_event when it is alive and the
event lies within the click radius R of its center
(math.hypot(mx - x, my - y) <= R, stated on squares). -/
def hits (mx my R : ℚ) (d : Dot) : Bool :=
  d.alive && decide ((mx - d.x) ^ 2 + (my - d.y) ^ 2 ≤ R ^ 2)

/-- The hit_target flag set by the scan loop in handle_event (and the
identical loop of run_colors_level): true as soon as ANY alive dot — target
or distractor — is within the click radius. -/
def hit_target_flag (dots : List Dot) (mx my R : ℚ) : Bool :=
  dots.any (hits mx my R)

/-- handle_event adds a crack exactly when the flag stayed false. -/
def crack_created (dots : List Dot) (mx my R : ℚ) : Bool :=
  ! hit_target_flag dots mx my R

/-- Modelled from the spec for comparison: "qualifying miss" = the event
lies outside the click radius of every alive target-classified dot. -/
def qualifying_miss_spec (dots : List Dot) (mx my R : ℚ) : Bool :=
  ! dots.any (fun d =>
      d.alive && d.target &&
        decide ((mx - d.x) ^ 2 + (my - d.y) ^ 2 ≤ R ^ 2))

end ColorsLevel

/-- C2 counterexample: a single alive distractor dot sitting under the
pointer.  The event is a qualifying miss in the spec's sense (no alive
target anywhere near), yet the code sets hit_target and creates no crack. -/
theorem crack_on_distractor_counterexample :
    ColorsLevel.crack_created
        [{ x := 0, y := 0, dx := 0, dy := 0, color := 1, radius := 24,
           target := false, alive := true }] 0 0 60 = false ∧
    ColorsLevel.qualifying_miss_spec
        [{ x := 0, y := 0, dx := 0, dy := 0, color := 1, radius := 24,
           target := false, alive := true }] 0 0 60 = true := by
  constructor <;>
    simp [ColorsLevel.crack_created, ColorsLevel.hit_target_flag,
      ColorsLevel.hits, ColorsLevel.qualifying_miss_spec]

/-- C2 (amended): a crack (with its screen shake) is created if and only if
the event's location is outside the click radius of every alive dot of ANY
class; an event within the click radius of an alive distractor suppresses
the crack (it sets hit_target even though no target was destroyed). -/
theorem crack_created_iff (dots : List ColorsLevel.Dot) (mx my R : ℚ) :
    ColorsLevel.crack_created dots mx my R = true ↔
      ∀ d ∈ dots, d.alive = true →
        R ^ 2 < (mx - d.x) ^ 2 + (my - d.y) ^ 2 := by
  simp [ColorsLevel.crack_created, ColorsLevel.hit_target_flag,
    ColorsLevel.hits, List.any_eq_true, not_le]

/-- C2 amended-claim witness at a concrete input: no alive dot near the
event, so a crack is created. -/
theorem crack_created_iff_witness :
    ColorsLevel.crack_created
        [{ x := 500, y := 500, dx := 0, dy := 0, color := 1, radius := 24,
           target := true, alive := true }] 0 0 60 = true := by
  rw [crack_created_iff]
  intro d hd
  simp only [List.mem_singleton] at hd
  subst hd
  intro _
  norm_num

namespace ColorsLevel

/-- The list comprehension of _select_target_color: color indices not yet in
the used set, in COLORS_LIST order. -/
def available_colors (used : List Nat) : List Nat :=
  (List.range NUM_COLORS).filter (fun i => decide (i ∉ used))

/-- Rotation state of the controller: the used-set (a Python list of
indices) and the currently active color index. -/
structure TargetState where
  used_colors : List Nat
  color_idx : Nat
  deriving Repr, DecidableEq

/-- The reset step of _select_target_color: when every color is already in
the used-set (the available list is empty), the used-set is replaced by the
singleton of the current color to avoid immediate repetition. -/
def used_after_reset (s : TargetState) : List Nat :=
  if available_colors s.used_colors = [] then [s.color_idx] else s.used_colors

/-- _select_target_color.  After the possible reset the source recomputes
the available list (which then equals available_colors of the post-reset
used-set in both branches); random.choice(available) is modelled by an
arbitrary draw index (the element at position choice mod length); the final
"should be impossible" random fallback branch is kept as in the source. -/
def select_target_color (s : TargetState) (choice : Nat) : TargetState :=
  if available_colors (used_after_reset s) = [] then
    { s with color_idx := choice % NUM_COLORS }
  else
    let avail1 := available_colors (used_after_reset s)
    let idx := avail1.getD (choice % avail1.length) 0
    { used_colors :=
        if idx ∈ used_after_reset s then used_after_reset s
        else used_after_reset s ++ [idx],
      color_idx := idx }

theorem mem_available_colors (used : List Nat) (i : Nat) :
    i ∈ available_colors used ↔ i < NUM_COLORS ∧ i ∉ used := by
  simp [available_colors, List.mem_filter, List.mem_range]

/-- After the used-set resets to the single just-finished color, the
available list is nonempty (NUM_COLORS = 5 ≥ 2). -/
theorem available_colors_singleton_ne_nil (c : Nat) :
    available_colors [c] ≠ [] := by
  intro h
  have h0 := (List.filter_eq_nil_iff.mp h) 0 (by simp [NUM_COLORS])
  have h1 := (List.filter_eq_nil_iff.mp h) 1 (by simp [NUM_COLORS])
  simp at h0 h1
  omega

/-- The drawn element is a member of the available list. -/
theorem getD_mod_mem (l : List Nat) (c : Nat) (h : l ≠ []) :
    l.getD (c % l.length) 0 ∈ l := by
  have hlen : c % l.length < l.length :=
    Nat.mod_lt _ (List.length_pos.mpr h)
  rw [List.getD_eq_getElem _ _ hlen]
  exact List.getElem_mem _

end ColorsLevel

/-- C6: When the quota of 5 hits triggers a rotation, the next active class
is drawn from the classes not in the used-set, where a used-set that already
covers all classes is first reset to contain only the just-finished class
X = color_idx; under the code's invariant that the active class is in the
used-set, the new class Y satisfies Y ≠ X (possible since NUM_COLORS = 5 is
at least two), Y is not in the (post-reset) used-set the draw was made from,
and the invariant is re-established: Y is in the new used-set. -/
theorem select_target_color_rotates (s : ColorsLevel.TargetState)
    (choice : Nat) (hinv : s.color_idx ∈ s.used_colors) :
    (ColorsLevel.select_target_color s choice).color_idx ≠ s.color_idx ∧
    (ColorsLevel.select_target_color s choice).color_idx ∉
      ColorsLevel.used_after_reset s ∧
    (ColorsLevel.available_colors s.used_colors = [] →
      ColorsLevel.used_after_reset s = [s.color_idx]) ∧
    (ColorsLevel.select_target_color s choice).color_idx ∈
      (ColorsLevel.select_target_color s choice).used_colors := by
  have hcur : s.color_idx ∈ ColorsLevel.used_after_reset s := by
    unfold ColorsLevel.used_after_reset
    split
    · exact List.mem_singleton.mpr rfl
    · exact hinv
  have hne : ColorsLevel.available_colors (ColorsLevel.used_after_reset s) ≠
      [] := by
    unfold ColorsLevel.used_after_reset
    split
    · exact ColorsLevel.available_colors_singleton_ne_nil _
    · next h => exact h
  unfold ColorsLevel.select_target_color
  rw [if_neg hne]
  set avail1 :=
    ColorsLevel.available_colors (ColorsLevel.used_after_reset s) with hav1
  set idx := avail1.getD (choice % avail1.length) 0 with hidx
  have hmem : idx ∈ avail1 := ColorsLevel.getD_mod_mem _ _ hne
  have hnot : idx ∉ ColorsLevel.used_after_reset s := by
    have := (ColorsLevel.mem_available_colors _ idx).mp (hav1 ▸ hmem)
    exact this.2
  have hneq : idx ≠ s.color_idx := fun h => hnot (h ▸ hcur)
  refine ⟨hneq, hnot, ?_, ?_⟩
  · intro h0
    unfold ColorsLevel.used_after_reset
    rw [if_pos h0]
  · show idx ∈ (if idx ∈ ColorsLevel.used_after_reset s
        then ColorsLevel.used_after_reset s
        else ColorsLevel.used_after_reset s ++ [idx])
    rw [if_neg hnot]
    exact List.mem_append_right _ (List.mem_singleton.mpr rfl)

/-- C6 witness: with all five colors used (used-set = [0,1,2,3,4], active
class 2), the rotation draws a class different from 2 after resetting the
used-set to [2]. -/
theorem select_target_color_rotates_witness :
    (ColorsLevel.select_target_color
        { used_colors := [0, 1, 2, 3, 4], color_idx := 2 } 0).color_idx ≠ 2 ∧
    ColorsLevel.used_after_reset
        { used_colors := [0, 1, 2, 3, 4], color_idx := 2 } = [2] := by
  have h := select_target_color_rotates
    { used_colors := [0, 1, 2, 3, 4], color_idx := 2 } 0 (by decide)
  exact ⟨h.1, h.2.2.1 (by decide)⟩

namespace ColorsLevel

/-- The ColorsLevel fields that the checkpoint flow touches.  On a
"CHECKPOINT" result the level object persists untouched while the
checkpoint screen runs (the snapshot is the object state itself), and
resume_from_checkpoint is the restore step. -/
structure LevelState where
  dots : List Dot
  used_colors : List Nat
  color_idx : Nat
  target_dots_left : Int
  collision_enabled : Bool
  color_changed : Bool
  deriving Repr, DecidableEq

/-- sum(1 for d in self.dots if d["target"] and d["alive"]). -/
def count_alive_targets (dots : List Dot) : Nat :=
  (dots.filter (fun d => d.target && d.alive)).length

/-- resume_from_checkpoint: re-enables collisions when a color change had
already happened, and recomputes target_dots_left from the live dots
rather than trusting the stored value.  (The ghost notification it also
posts is draw-only decoration.) -/
def resume_from_checkpoint (s : LevelState) : LevelState :=
  let s1 :=
    if s.color_changed && ! s.collision_enabled then
      { s with collision_enabled := true }
    else s
  { s1 with target_dots_left := (count_alive_targets s1.dots : Int) }

theorem resume_from_checkpoint_dots (s : LevelState) :
    (resume_from_checkpoint s).dots = s.dots := by
  unfold resume_from_checkpoint
  split <;> rfl

end ColorsLevel

/-- C9: Pausing and resuming across a checkpoint: the active class and
used-set are restored exactly (the snapshot is the persisting level object
and resume does not touch them), and the remaining-target count is
recomputed from the live dots, so it always equals the number of alive
target-classified dots; whenever the pre-checkpoint count agreed with the
live dots, the whole (active class, used-set, remaining-target count)
triple is therefore identical after resume. -/
theorem resume_from_checkpoint_round_trip (s : ColorsLevel.LevelState) :
    (ColorsLevel.resume_from_checkpoint s).color_idx = s.color_idx ∧
    (ColorsLevel.resume_from_checkpoint s).used_colors = s.used_colors ∧
    (ColorsLevel.resume_from_checkpoint s).target_dots_left =
      (ColorsLevel.count_alive_targets s.dots : Int) ∧
    (s.target_dots_left = (ColorsLevel.count_alive_targets s.dots : Int) →
      ((ColorsLevel.resume_from_checkpoint s).color_idx,
        (ColorsLevel.resume_from_checkpoint s).used_colors,
        (ColorsLevel.resume_from_checkpoint s).target_dots_left) =
      (s.color_idx, s.used_colors, s.target_dots_left)) := by
  unfold ColorsLevel.resume_from_checkpoint
  split <;>
    exact ⟨rfl, rfl, rfl, fun h => by rw [h]⟩

/-- C9 witness: a concrete consistent state with one alive target; resume
recomputes the count to 1 and the triple round-trips identically. -/
theorem resume_from_checkpoint_round_trip_witness :
    (ColorsLevel.resume_from_checkpoint
        { dots := [{ x := 1, y := 2, dx := 0, dy := 0, color := 0,
                     radius := 24, target := true, alive := true }],
          used_colors := [0], color_idx := 0, target_dots_left := 1,
          collision_enabled := true,
          color_changed := true }).target_dots_left = 1 ∧
    ((1 : Int) =
        (ColorsLevel.count_alive_targets
          [{ x := 1, y := 2, dx := 0, dy := 0, color := 0,
             radius := 24, target := true, alive := true }] : Int)) := by
  refine ⟨?_, by norm_num [ColorsLevel.count_alive_targets]⟩
  have h := resume_from_checkpoint_round_trip
    { dots := [{ x := 1, y := 2, dx := 0, dy := 0, color := 0,
                 radius := 24, target := true, alive := true }],
      used_colors := [0], color_idx := 0, target_dots_left := 1,
      collision_enabled := true, color_changed := true }
  have h4 := h.2.2.2 (by norm_num [ColorsLevel.count_alive_targets])
  have := congrArg (fun t : Nat × List Nat × Int => t.2.2) h4
  simpa using this

/-- C1 witness: after fifteen qualifying misses the screen is shattered and
a sixteenth miss is a strict no-op. -/
theorem effects_crack_shatter_cycle_witness :
    (Effects.run (List.replicate 15 Effects.Ev.miss)).background_shattered =
        true ∧
    Effects.miss (Effects.run (List.replicate 15 Effects.Ev.miss)) =
      Effects.run (List.replicate 15 Effects.Ev.miss) := by
  refine ⟨by decide, ?_⟩
  exact (effects_crack_shatter_cycle
    (List.replicate 15 Effects.Ev.miss)).2.2.2.2.2 (by decide)

/-! ## Particle stores

Three copies exist in the source: ParticlePool (src/systems/particle.py),
and ParticleManager / ParticleSystem (src/utils/particle_system.py).
Particle colors are abstracted to an index; everything else is kept. -/

def PARTICLE_CULLING_DISTANCE : ℚ := 800  -- DEFAULT_WIDTH

/-- Particle record of utils/particle_system.py (both classes):
{x, y, color, size, dx, dy, duration, start_duration, active}. -/
structure PParticle where
  x : ℚ
  y : ℚ
  dx : ℚ
  dy : ℚ
  color : Nat
  size : ℚ
  duration : ℚ
  start_duration : ℚ
  active : Bool
  deriving Repr, DecidableEq

/-- A pre-created inactive pool slot (all fields zeroed, active False). -/
def blankParticle : PParticle :=
  { x := 0, y := 0, dx := 0, dy := 0, color := 0, size := 0,
    duration := 0, start_duration := 0, active := false }

/-- The "scan for the first inactive slot" loop shared by both
get_particle implementations: activates and configures the first inactive
slot (returning the updated list), or reports none. -/
def setFirstInactive (l : List PParticle) (p : PParticle) :
    Option (List PParticle) :=
  match l with
  | [] => none
  | q :: rest =>
      if q.active then (setFirstInactive rest p).map (fun r => q :: r)
      else some (p :: rest)

/-- Number of active particles in a list. -/
def activeCount (l : List PParticle) : Nat :=
  l.countP (fun p => p.active)

/-- Creation events and frame updates driving a particle store. -/
inductive PEv
  | create (x y : ℚ) (color : Nat) (size dx dy dur : ℚ)
  | update (dt : ℚ)

namespace ParticleManager

/-- ParticleManager state: a dynamically grown particles list capped at
max_particles, plus the 100 pre-created pool slots, and the culling
distance (0 until set_culling_distance is called). -/
structure State where
  max_particles : Nat
  particles : List PParticle
  particle_pool : List PParticle
  culling_distance : ℚ
  deriving Repr, DecidableEq

/-- ParticleManager.__init__(max_particles): pre-creates 100 inactive pool
slots; culling distance starts at 0. -/
def init (max_particles : Nat) : State :=
  { max_particles := max_particles, particles := [],
    particle_pool := List.replicate 100 blankParticle,
    culling_distance := 0 }

/-- ParticleManager.create_particle via get_particle: first reuse an
inactive pool slot; otherwise refuse when the particles list is at
max_particles; otherwise append a new active particle to the particles
list. -/
def create_particle (s : State) (x y : ℚ) (color : Nat)
    (size dx dy dur : ℚ) : State :=
  let p : PParticle :=
    { x := x, y := y, dx := dx, dy := dy, color := color, size := size,
      duration := dur, start_duration := dur, active := true }
  match setFirstInactive s.particle_pool p with
  | some pool => { s with particle_pool := pool }
  | none =>
      if s.max_particles ≤ s.particles.length then s
      else { s with particles := s.particles ++ [p] }

/-- Per-particle body of ParticleManager.update: move, decrement duration
by dt, release on expiry, then cull when a positive culling distance is
set and the particle is far from the origin. -/
def stepParticleM (cull dt : ℚ) (p : PParticle) : PParticle :=
  if p.active then
    let x := p.x + p.dx * dt
    let y := p.y + p.dy * dt
    let dur := p.duration - dt
    if dur ≤ 0 then
      { p with x := x, y := y, duration := dur, active := false }
    else if 0 < cull ∧ cull ^ 2 < x ^ 2 + y ^ 2 then
      { p with x := x, y := y, duration := dur, active := false }
    else { p with x := x, y := y, duration := dur }
  else p

/-- ParticleManager.update iterates self.particles ONLY: the 100
pre-created pool slots are never updated. -/
def update (s : State) (dt : ℚ) : State :=
  { s with particles := s.particles.map (stepParticleM s.culling_distance dt) }

def step (s : State) : PEv → State
  | PEv.create x y color size dx dy dur =>
      create_particle s x y color size dx dy dur
  | PEv.update dt => update s dt

def run (max_particles : Nat) (evs : List PEv) : State :=
  evs.foldl step (init max_particles)

def updateN (s : State) (dt : ℚ) : Nat → State
  | 0 => s
  | k + 1 => updateN (update s dt) dt k

end ParticleManager

namespace ParticleSystem

/-- ParticleSystem state.  active_particles is the set of active-flagged
slots of the (pre-allocated) pool; the pool keeps creation order.  The one
place the two orders could differ — which particle min() recycles when
several share the minimal duration — does not affect any counting or
lifetime statement below. -/
structure State where
  max_particles : Nat
  width : ℚ
  height : ℚ
  pool : List PParticle
  deriving Repr, DecidableEq

/-- ParticleSystem.__init__: pre-allocates max_particles inactive slots. -/
def init (width height : ℚ) (max_particles : Nat) : State :=
  { max_particles := max_particles, width := width, height := height,
    pool := List.replicate max_particles blankParticle }

/-- min(active_particles, key=duration): the minimal duration among active
slots, if any. -/
def minActiveDuration (l : List PParticle) : Option ℚ :=
  ((l.filter (fun p => p.active)).map (fun p => p.duration)).min?

/-- Recycling overwrites the fields of the first active slot carrying the
minimal duration. -/
def replaceFirstMinActive (l : List PParticle) (m : ℚ) (p : PParticle) :
    List PParticle :=
  match l with
  | [] => []
  | q :: rest =>
      if q.active = true ∧ q.duration = m then p :: rest
      else q :: replaceFirstMinActive rest m p

/-- get_particle's at-capacity branch: recycle the oldest (minimal
duration) active particle.  (With an empty active list Python's min()
raises; that point is unreachable from init with max_particles ≥ 1.) -/
def recycleMin (l : List PParticle) (p : PParticle) : List PParticle :=
  match minActiveDuration l with
  | none => l
  | some m => replaceFirstMinActive l m p

/-- ParticleSystem.create_particle via get_particle: first inactive slot,
else recycle-oldest when at the active limit, else append a fresh slot. -/
def create_particle (s : State) (x y : ℚ) (color : Nat)
    (size dx dy dur : ℚ) : State :=
  let p : PParticle :=
    { x := x, y := y, dx := dx, dy := dy, color := color, size := size,
      duration := dur, start_duration := dur, active := true }
  match setFirstInactive s.pool p with
  | some pool => { s with pool := pool }
  | none =>
      if s.max_particles ≤ activeCount s.pool then
        { s with pool := recycleMin s.pool p }
      else { s with pool := s.pool ++ [p] }

/-- Per-particle body of ParticleSystem.update: while duration > 0, move by
dx*dt*60, decrement duration by 1 (NOT by dt), release when far offscreen;
once duration has reached 0, release on the next call. -/
def stepParticleS (width height dt : ℚ) (p : PParticle) : PParticle :=
  if p.active then
    if 0 < p.duration then
      let x := p.x + p.dx * dt * 60
      let y := p.y + p.dy * dt * 60
      let dur := p.duration - 1
      if x < -PARTICLE_CULLING_DISTANCE ∨
          width + PARTICLE_CULLING_DISTANCE < x ∨
          y < -PARTICLE_CULLING_DISTANCE ∨
          height + PARTICLE_CULLING_DISTANCE < y then
        { p with x := x, y := y, duration := dur, active := false }
      else { p with x := x, y := y, duration := dur }
    else { p with active := false }
  else p

def update (s : State) (dt : ℚ) : State :=
  { s with pool := s.pool.map (stepParticleS s.width s.height dt) }

def step (s : State) : PEv → State
  | PEv.create x y color size dx dy dur =>
      create_particle s x y color size dx dy dur
  | PEv.update dt => update s dt

def run (width height : ℚ) (max_particles : Nat) (evs : List PEv) : State :=
  evs.foldl step (init width height max_particles)

def updateN (s : State) (dt : ℚ) : Nat → State
  | 0 => s
  | k + 1 => updateN (update s dt) dt k

end ParticleSystem

namespace ParticlePool

/-- Particle dataclass of src/systems/particle.py. -/
structure Particle where
  px : ℚ
  py : ℚ
  vx : ℚ
  vy : ℚ
  color : Nat
  size : ℚ
  life : ℚ
  max_life : ℚ
  deriving Repr, DecidableEq

structure State where
  particles : List Particle
  max_particles : Nat
  deriving Repr, DecidableEq

/-- ParticlePool.create_particle: refuse at capacity, else append. -/
def create_particle (s : State) (px py vx vy : ℚ) (color : Nat)
    (size life : ℚ) : State :=
  if s.max_particles ≤ s.particles.length then s
  else
    { s with particles :=
        s.particles ++
          [{ px := px, py := py, vx := vx, vy := vy, color := color,
             size := size, life := life, max_life := life }] }

/-- Per-particle body of ParticlePool.update: decrement life by dt, remove
on expiry, else move by velocity*dt. -/
def stepParticleP (dt : ℚ) (p : Particle) : Option Particle :=
  let life := p.life - dt
  if life ≤ 0 then none
  else
    some { p with life := life, px := p.px + p.vx * dt,
                  py := p.py + p.vy * dt }

/-- ParticlePool.update iterates a copy and removes expired particles
(equal-valued duplicates aside, removal of the iterated element). -/
def update (s : State) (dt : ℚ) : State :=
  { s with particles := s.particles.filterMap (stepParticleP dt) }

def updateN (s : State) (dt : ℚ) : Nat → State
  | 0 => s
  | k + 1 => updateN (update s dt) dt k

end ParticlePool

theorem setFirstInactive_length (p : PParticle) :
    ∀ (l l' : List PParticle), setFirstInactive l p = some l' →
      l'.length = l.length := by
  intro l
  induction l with
  | nil => intro l' h; simp [setFirstInactive] at h
  | cons q rest ih =>
      intro l' h
      unfold setFirstInactive at h
      by_cases hq : q.active
      · rw [if_pos hq] at h
        cases hr : setFirstInactive rest p with
        | none => rw [hr] at h; simp at h
        | some r =>
            rw [hr] at h
            simp at h
            rw [← h]
            simp [ih r hr]
      · rw [if_neg hq] at h
        simp at h
        rw [← h]
        simp

theorem setFirstInactive_none (p : PParticle) :
    ∀ l, setFirstInactive l p = none → ∀ q ∈ l, q.active = true := by
  intro l
  induction l with
  | nil => intro _ q hq; cases hq
  | cons a rest ih =>
      intro h q hq
      unfold setFirstInactive at h
      by_cases ha : a.active
      · rw [if_pos ha] at h
        cases hr : setFirstInactive rest p with
        | none =>
            rcases List.mem_cons.mp hq with h1 | h1
            · rw [h1]; exact ha
            · exact ih hr q h1
        | some r => rw [hr] at h; simp at h
      · rw [if_neg ha] at h
        simp at h

theorem activeCount_le_length (l : List PParticle) :
    activeCount l ≤ l.length :=
  List.countP_le_length _

namespace ParticleSystem

theorem replaceFirstMinActive_length (m : ℚ) (p : PParticle) :
    ∀ l, (replaceFirstMinActive l m p).length = l.length := by
  intro l
  induction l with
  | nil => rfl
  | cons q rest ih =>
      unfold replaceFirstMinActive
      split
      · simp
      · simp [ih]

theorem recycleMin_length (l : List PParticle) (p : PParticle) :
    (recycleMin l p).length = l.length := by
  unfold recycleMin
  cases minActiveDuration l with
  | none => rfl
  | some m => exact replaceFirstMinActive_length m p l

/-- Pool-size invariant: the pre-allocated pool never grows past
max_particles. -/
def SInv (C : Nat) (s : State) : Prop :=
  s.pool.length ≤ C ∧ s.max_particles = C

theorem sinv_init (w h : ℚ) (C : Nat) : SInv C (init w h C) := by
  constructor
  · simp [init]
  · rfl

theorem sinv_step (C : Nat) (s : State) (e : PEv) (hs : SInv C s) :
    SInv C (step s e) := by
  obtain ⟨hlen, hmax⟩ := hs
  cases e with
  | update dt => exact ⟨by simp [step, update, hlen], hmax⟩
  | create x y color size dx dy dur =>
      show SInv C (create_particle s x y color size dx dy dur)
      unfold create_particle
      cases hset : setFirstInactive s.pool
          { x := x, y := y, dx := dx, dy := dy, color := color,
            size := size, duration := dur, start_duration := dur,
            active := true } with
      | some pool' =>
          simp only [hset]
          exact ⟨by simp [setFirstInactive_length _ _ _ hset, hlen], hmax⟩
      | none =>
          simp only [hset]
          by_cases hcap : s.max_particles ≤ activeCount s.pool
          · rw [if_pos hcap]
            exact ⟨by simp [recycleMin_length, hlen], hmax⟩
          · rw [if_neg hcap]
            have hall : ∀ q ∈ s.pool, q.active = true :=
              setFirstInactive_none _ _ hset
            have hfull : activeCount s.pool = s.pool.length :=
              List.countP_eq_length.mpr (by
                intro a ha; simpa using hall a ha)
            have hcap' : activeCount s.pool < s.max_particles := by omega
            refine ⟨?_, hmax⟩
            simp only [List.length_append, List.length_singleton]
            omega
  
theorem sinv_run (w h : ℚ) (C : Nat) (evs : List PEv) :
    SInv C (run w h C evs) := by
  suffices hgen : ∀ s, SInv C s → SInv C (evs.foldl step s) from
    hgen (init w h C) (sinv_init w h C)
  induction evs with
  | nil => intro s hs; exact hs
  | cons e rest ih => intro s hs; exact ih (step s e) (sinv_step C s e hs)

end ParticleSystem

namespace ParticleManager

/-- Invariant: the pre-created pool keeps its 100 slots and the dynamic
particles list is capped at max_particles. -/
def MInv (C : Nat) (s : State) : Prop :=
  s.particle_pool.length = 100 ∧ s.particles.length ≤ C ∧
    s.max_particles = C

theorem minv_init (C : Nat) : MInv C (init C) := by
  refine ⟨by simp [init], by simp [init], rfl⟩

theorem minv_step (C : Nat) (s : State) (e : PEv) (hs : MInv C s) :
    MInv C (step s e) := by
  obtain ⟨hpool, hlen, hmax⟩ := hs
  cases e with
  | update dt =>
      exact ⟨hpool, by simp [step, update, hlen], hmax⟩
  | create x y color size dx dy dur =>
      show MInv C (create_particle s x y color size dx dy dur)
      unfold create_particle
      cases hset : setFirstInactive s.particle_pool
          { x := x, y := y, dx := dx, dy := dy, color := color,
            size := size, duration := dur, start_duration := dur,
            active := true } with
      | some pool' =>
          simp only [hset]
          exact ⟨by simp [setFirstInactive_length _ _ _ hset, hpool],
            hlen, hmax⟩
      | none =>
          simp only [hset]
          by_cases hcap : s.max_particles ≤ s.particles.length
          · rw [if_pos hcap]
            exact ⟨hpool, hlen, hmax⟩
          · rw [if_neg hcap]
            refine ⟨hpool, ?_, hmax⟩
            simp only [List.length_append, List.length_singleton]
            omega

theorem minv_run (C : Nat) (evs : List PEv) : MInv C (run C evs) := by
  suffices hgen : ∀ s, MInv C s → MInv C (evs.foldl step s) from
    hgen (init C) (minv_init C)
  induction evs with
  | nil => intro s hs; exact hs
  | cons e rest ih => intro s hs; exact ih (step s e) (minv_step C s e hs)

end ParticleManager

/-- C3 counterexample: ParticleManager configured with capacity C = 2.
Three create_particle calls each claim one of the 100 pre-created pool
slots (which sit outside the max_particles cap), leaving 3 > 2 active
particles. -/
theorem particle_manager_cap_counterexample :
    2 <
      activeCount (ParticleManager.run 2
          [PEv.create 0 0 0 5 0 0 10, PEv.create 0 0 0 5 0 0 10,
            PEv.create 0 0 0 5 0 0 10]).particle_pool +
        activeCount (ParticleManager.run 2
          [PEv.create 0 0 0 5 0 0 10, PEv.create 0 0 0 5 0 0 10,
            PEv.create 0 0 0 5 0 0 10]).particles := by
  decide

/-- C3 (amended): for every event sequence, ParticleSystem's active count
never exceeds the configured capacity C; ParticleManager's active count is
instead only bounded by 100 + C, because its 100 pre-created pool slots do
not count against the max_particles cap (and can push the store past C, as
the counterexample shows). -/
theorem particle_store_caps :
    (∀ (w h : ℚ) (C : Nat) (evs : List PEv),
      activeCount (ParticleSystem.run w h C evs).pool ≤ C) ∧
    (∀ (C : Nat) (evs : List PEv),
      activeCount (ParticleManager.run C evs).particle_pool +
        activeCount (ParticleManager.run C evs).particles ≤ 100 + C) := by
  constructor
  · intro w h C evs
    have hs := ParticleSystem.sinv_run w h C evs
    calc activeCount (ParticleSystem.run w h C evs).pool
        ≤ (ParticleSystem.run w h C evs).pool.length :=
          activeCount_le_length _
      _ ≤ C := hs.1
  · intro C evs
    obtain ⟨hp, hl, _⟩ := ParticleManager.minv_run C evs
    have h1 := activeCount_le_length (ParticleManager.run C evs).particle_pool
    have h2 := activeCount_le_length (ParticleManager.run C evs).particles
    omega

theorem activeCount_eq_zero_of_inactive (l : List PParticle)
    (h : ∀ r ∈ l, r.active = false) : activeCount l = 0 := by
  unfold activeCount
  rw [List.countP_eq_zero]
  intro a ha
  simp [h a ha]

namespace ParticlePool

theorem updateN_add (s : State) (dt : ℚ) (a b : Nat) :
    updateN s dt (a + b) = updateN (updateN s dt a) dt b := by
  induction a generalizing s with
  | zero => rw [Nat.zero_add]; rfl
  | succ a ih =>
      rw [Nat.succ_add]
      show updateN (update s dt) dt (a + b) =
        updateN (updateN (update s dt) dt a) dt b
      exact ih (update s dt)

theorem update_single_alive (m : Nat) (p : Particle) (dt : ℚ)
    (h : ¬(p.life - dt ≤ 0)) :
    update { particles := [p], max_particles := m } dt =
      { particles :=
          [{ p with
              life := p.life - dt
              px := p.px + p.vx * dt
              py := p.py + p.vy * dt }],
        max_particles := m } := by
  unfold update
  simp [stepParticleP, h]

theorem update_single_dead (m : Nat) (p : Particle) (dt : ℚ)
    (h : p.life - dt ≤ 0) :
    update { particles := [p], max_particles := m } dt =
      { particles := [], max_particles := m } := by
  unfold update
  simp [stepParticleP, h]

/-- While fewer than life/dt updates have run, the particle is still in the
store, with its life decremented by dt each call. -/
theorem alive_after (m : Nat) (dt : ℚ) (hdt : 0 < dt) :
    ∀ (k : Nat) (p : Particle), (k : ℚ) * dt < p.life →
      ∃ q : Particle,
        updateN { particles := [p], max_particles := m } dt k =
          { particles := [q], max_particles := m } ∧
        q.life = p.life - k * dt := by
  intro k
  induction k with
  | zero =>
      intro p h
      exact ⟨p, rfl, by push_cast; ring⟩
  | succ n ih =>
      intro p h
      have hn : (0 : ℚ) ≤ (n : ℚ) := Nat.cast_nonneg n
      have hpos : ¬(p.life - dt ≤ 0) := by
        push_cast at h
        nlinarith
      obtain ⟨q, hq, hlife⟩ := ih
        { p with
            life := p.life - dt
            px := p.px + p.vx * dt
            py := p.py + p.vy * dt }
        (by show (n : ℚ) * dt < p.life - dt; push_cast at h; linarith)
      refine ⟨q, ?_, ?_⟩
      · show updateN (update { particles := [p], max_particles := m } dt)
            dt n = _
        rw [update_single_alive m p dt hpos]
        exact hq
      · rw [hlife]
        dsimp only
        push_cast
        ring

end ParticlePool

namespace ParticleSystem

theorem updateN_split (s : State) (dt : ℚ) (a b : Nat) :
    updateN s dt (a + b) = updateN (updateN s dt a) dt b := by
  induction a generalizing s with
  | zero => rw [Nat.zero_add]; rfl
  | succ a ih =>
      rw [Nat.succ_add]
      show updateN (update s dt) dt (a + b) =
        updateN (updateN (update s dt) dt a) dt b
      exact ih (update s dt)

theorem stepParticleS_inactive (w h dt : ℚ) (p : PParticle)
    (hp : p.active = false) : stepParticleS w h dt p = p := by
  unfold stepParticleS
  simp [hp]

theorem map_stepParticleS_inactive (w h dt : ℚ) :
    ∀ l : List PParticle, (∀ r ∈ l, r.active = false) →
      l.map (stepParticleS w h dt) = l := by
  intro l
  induction l with
  | nil => intro _; rfl
  | cons a rest ih =>
      intro hl
      simp only [List.map_cons]
      rw [stepParticleS_inactive w h dt a (hl a (List.mem_cons_self a rest)),
        ih (fun r hr => hl r (List.mem_cons_of_mem a hr))]

theorem stepParticleS_active_origin (w h dt : ℚ) (hw : 0 ≤ w) (hh : 0 ≤ h)
    (c : Nat) (sz d sd : ℚ) (hd : 0 < d) :
    stepParticleS w h dt
        { x := 0, y := 0, dx := 0, dy := 0, color := c, size := sz,
          duration := d, start_duration := sd, active := true } =
      { x := 0, y := 0, dx := 0, dy := 0, color := c, size := sz,
        duration := d - 1, start_duration := sd, active := true } := by
  unfold stepParticleS
  have hx : (0 : ℚ) + 0 * dt * 60 = 0 := by ring
  have hcond : ¬((0 : ℚ) + 0 * dt * 60 < -PARTICLE_CULLING_DISTANCE ∨
      w + PARTICLE_CULLING_DISTANCE < 0 + 0 * dt * 60 ∨
      (0 : ℚ) + 0 * dt * 60 < -PARTICLE_CULLING_DISTANCE ∨
      h + PARTICLE_CULLING_DISTANCE < 0 + 0 * dt * 60) := by
    rw [hx]
    unfold PARTICLE_CULLING_DISTANCE
    push_neg
    refine ⟨by norm_num, by linarith, by norm_num, by linarith⟩
  simp only [hd, if_true, if_pos rfl]
  rw [if_neg hcond]
  rw [hx]

theorem stepParticleS_expired (w h dt : ℚ) (p : PParticle)
    (hp : p.active = true) (hd : ¬(0 < p.duration)) :
    stepParticleS w h dt p = { p with active := false } := by
  unfold stepParticleS
  simp [hp, hd]

/-- A just-created particle sitting at the origin with zero velocity, ahead
of an otherwise inactive pool: each update decrements its duration by one
(dt is not used for the lifetime) and it stays active while j ≤ duration. -/
theorem updateN_origin (w h : ℚ) (hw : 0 ≤ w) (hh : 0 ≤ h) (dt : ℚ)
    (m : Nat) (rest : List PParticle)
    (hrest : ∀ r ∈ rest, r.active = false) (c : Nat) (sz sd : ℚ) :
    ∀ (j d : Nat), j ≤ d →
      updateN
          { max_particles := m, width := w, height := h,
            pool :=
              { x := 0, y := 0, dx := 0, dy := 0, color := c, size := sz,
                duration := (d : ℚ), start_duration := sd,
                active := true } :: rest } dt j =
        { max_particles := m, width := w, height := h,
          pool :=
            { x := 0, y := 0, dx := 0, dy := 0, color := c, size := sz,
              duration := (d : ℚ) - (j : ℚ), start_duration := sd,
              active := true } :: rest } := by
  intro j
  induction j with
  | zero =>
      intro d _
      simp [updateN]
  | succ n ih =>
      intro d hd
      have hd1 : 1 ≤ d := le_trans (Nat.succ_le_succ (Nat.zero_le n)) hd
      have hdpos : (0 : ℚ) < (d : ℚ) := by exact_mod_cast hd1
      show updateN
          (update
            { max_particles := m, width := w, height := h,
              pool := _ :: rest } dt) dt n = _
      rw [show update
          { max_particles := m, width := w, height := h,
            pool :=
              { x := 0, y := 0, dx := 0, dy := 0, color := c, size := sz,
                duration := (d : ℚ), start_duration := sd,
                active := true } :: rest } dt =
          { max_particles := m, width := w, height := h,
            pool :=
              { x := 0, y := 0, dx := 0, dy := 0, color := c, size := sz,
                duration := ((d - 1 : Nat) : ℚ), start_duration := sd,
                active := true } :: rest } from ?_]
      · have := ih (d - 1) (by omega)
        rw [this]
        congr 2
        push_cast [Nat.cast_sub hd1]
        ring
      · unfold update
        simp only [List.map_cons]
        rw [map_stepParticleS_inactive w h dt rest hrest,
          stepParticleS_active_origin w h dt hw hh c sz _ sd hdpos]
        congr 2
        push_cast [Nat.cast_sub hd1]
        ring

/-- create_particle with the head pool slot inactive claims exactly that
slot. -/
theorem create_first_inactive (m : Nat) (w h : ℚ) (q : PParticle)
    (rest : List PParticle) (hq : q.active = false) (x y : ℚ) (c : Nat)
    (sz dx dy dur : ℚ) :
    create_particle
        { max_particles := m, width := w, height := h, pool := q :: rest }
        x y c sz dx dy dur =
      { max_particles := m, width := w, height := h,
        pool :=
          { x := x, y := y, dx := dx, dy := dy, color := c, size := sz,
            duration := dur, start_duration := dur,
            active := true } :: rest } := by
  unfold create_particle setFirstInactive
  simp [hq]

end ParticleSystem

namespace ParticleManager

/-- ParticleManager.update never touches the 100 pre-created pool slots, in
any number of frames. -/
theorem updateN_pool (s : State) (dt : ℚ) :
    ∀ k, (updateN s dt k).particle_pool = s.particle_pool := by
  intro k
  induction k generalizing s with
  | zero => rfl
  | succ n ih =>
      show (updateN (update s dt) dt n).particle_pool = _
      rw [ih (update s dt)]
      rfl

end ParticleManager

/-- C8 counterexample: ParticleSystem with one slot, a particle of lifetime
L = 1 and dt = 1.  ceil(L/dt) = 1, yet after one update call the particle
is still active (its duration just reached 0; ParticleSystem.update only
releases it on the NEXT call), so the active count has not dropped. -/
theorem particle_release_ceil_counterexample :
    (⌈(1 : ℚ) / 1⌉).toNat = 1 ∧
    activeCount
      ((ParticleSystem.updateN
          (ParticleSystem.create_particle (ParticleSystem.init 100 100 1)
            0 0 0 5 0 0 1) 1 1).pool) = 1 := by
  constructor
  · norm_num
  · have hinit : ParticleSystem.init 100 100 1 =
        { max_particles := 1, width := 100, height := 100,
          pool := [blankParticle] } := rfl
    rw [hinit,
      ParticleSystem.create_first_inactive 1 100 100 blankParticle []
        rfl 0 0 0 5 0 0 1,
      show ((1 : ℚ)) = ((1 : Nat) : ℚ) by norm_num,
      ParticleSystem.updateN_origin 100 100 (by norm_num) (by norm_num)
        ((1 : Nat) : ℚ) 1 [] (by intro r hr; cases hr) 0 5 ((1 : Nat) : ℚ)
        1 1 le_rfl]
    rfl

/-- C8 (amended): (1) For ParticlePool (src/systems/particle.py) the claim
holds as stated: a particle created with lifetime L into an empty store is
gone after exactly ceil(L/dt) update(dt) calls and the count drops from 1
to 0.  (2) For ParticleSystem the duration is decremented by 1 per call —
dt is ignored for lifetimes — and the release happens one call later: a
particle with integer lifetime L ≥ 1 is still active after L calls and is
released on call L + 1.  (3) ParticleManager.update never touches the 100
pre-created pool slots, so a particle created into one of them is never
released by update at all. -/
theorem particle_lifetime_release :
    (∀ (m : Nat) (px py vx vy : ℚ) (color : Nat) (size L dt : ℚ),
      0 < L → 0 < dt → 1 ≤ m →
      (ParticlePool.create_particle
          { particles := [], max_particles := m }
          px py vx vy color size L).particles.length = 1 ∧
      (ParticlePool.updateN
          (ParticlePool.create_particle
            { particles := [], max_particles := m }
            px py vx vy color size L) dt
          (⌈L / dt⌉).toNat).particles.length = 0) ∧
    (∀ (w h : ℚ) (m : Nat) (q : PParticle) (rest : List PParticle)
        (c : Nat) (sz : ℚ) (L : Nat) (dt : ℚ),
      0 ≤ w → 0 ≤ h → q.active = false →
      (∀ r ∈ rest, r.active = false) → 1 ≤ L →
      activeCount (ParticleSystem.create_particle
          { max_particles := m, width := w, height := h, pool := q :: rest }
          0 0 c sz 0 0 (L : ℚ)).pool = 1 ∧
      activeCount (ParticleSystem.updateN
          (ParticleSystem.create_particle
            { max_particles := m, width := w, height := h,
              pool := q :: rest }
            0 0 c sz 0 0 (L : ℚ)) dt L).pool = 1 ∧
      activeCount (ParticleSystem.updateN
          (ParticleSystem.create_particle
            { max_particles := m, width := w, height := h,
              pool := q :: rest }
            0 0 c sz 0 0 (L : ℚ)) dt (L + 1)).pool = 0) ∧
    (∀ (s : ParticleManager.State) (dt : ℚ) (k : Nat),
      (ParticleManager.updateN s dt k).particle_pool = s.particle_pool) := by
  refine ⟨?_, ?_, fun s dt k => ParticleManager.updateN_pool s dt k⟩
  · intro m px py vx vy color size L dt hL hdt hm
    have hcreate : ParticlePool.create_particle
        { particles := [], max_particles := m } px py vx vy color size L =
        { particles :=
            [{ px := px, py := py, vx := vx, vy := vy, color := color,
               size := size, life := L, max_life := L }],
          max_particles := m } := by
      unfold ParticlePool.create_particle
      rw [if_neg (by simp; omega)]
      rfl
    rw [hcreate]
    refine ⟨rfl, ?_⟩
    have hcpos : 0 < ⌈L / dt⌉ := Int.ceil_pos.mpr (div_pos hL hdt)
    set n : Nat := (⌈L / dt⌉).toNat with hn
    have hn1 : 1 ≤ n := by omega
    have hcast : (n : ℚ) = ((⌈L / dt⌉ : ℤ) : ℚ) := by
      rw [hn]
      exact_mod_cast congrArg (fun z : ℤ => (z : ℚ))
        (Int.toNat_of_nonneg (le_of_lt hcpos))
    have hlt : ((n - 1 : Nat) : ℚ) * dt < L := by
      have hceil : ((⌈L / dt⌉ : ℤ) : ℚ) < L / dt + 1 := Int.ceil_lt_add_one _
      have : ((n - 1 : Nat) : ℚ) = (n : ℚ) - 1 := by
        push_cast [Nat.cast_sub hn1]
        ring
      rw [this, hcast]
      have h2 : ((⌈L / dt⌉ : ℤ) : ℚ) - 1 < L / dt := by linarith
      calc (((⌈L / dt⌉ : ℤ) : ℚ) - 1) * dt < (L / dt) * dt :=
            mul_lt_mul_of_pos_right h2 hdt
        _ = L := div_mul_cancel₀ L (ne_of_gt hdt)
    have hle : L ≤ (n : ℚ) * dt := by
      rw [hcast]
      have h1 : L / dt ≤ ((⌈L / dt⌉ : ℤ) : ℚ) := Int.le_ceil _
      calc L = (L / dt) * dt := (div_mul_cancel₀ L (ne_of_gt hdt)).symm
        _ ≤ ((⌈L / dt⌉ : ℤ) : ℚ) * dt :=
            mul_le_mul_of_nonneg_right h1 (le_of_lt hdt)
    obtain ⟨qq, hq, hqlife⟩ := ParticlePool.alive_after m dt hdt (n - 1)
      { px := px, py := py, vx := vx, vy := vy, color := color,
        size := size, life := L, max_life := L } hlt
    have hdead : qq.life - dt ≤ 0 := by
      rw [hqlife]
      have : ((n - 1 : Nat) : ℚ) = (n : ℚ) - 1 := by
        push_cast [Nat.cast_sub hn1]
        ring
      dsimp only
      rw [this]
      have hexp : (n : ℚ) * dt = ((n : ℚ) - 1) * dt + dt := by ring
      linarith [hexp ▸ hle]
    rw [show n = (n - 1) + 1 from by omega, ParticlePool.updateN_add,
      hq, show (1 : Nat) = 0 + 1 from rfl]
    show (ParticlePool.updateN
        (ParticlePool.update { particles := [qq], max_particles := m } dt)
        dt 0).particles.length = 0
    rw [ParticlePool.update_single_dead m qq dt hdead]
    rfl
  · intro w h m q rest c sz L dt hw hh hq hrest hL
    rw [ParticleSystem.create_first_inactive m w h q rest hq 0 0 c sz 0 0
        (L : ℚ)]
    have hrest0 : activeCount rest = 0 :=
      activeCount_eq_zero_of_inactive rest hrest
    refine ⟨?_, ?_, ?_⟩
    · simp [activeCount, List.countP_cons]
      exact hrest
    · rw [ParticleSystem.updateN_origin w h hw hh dt m rest hrest c sz
        (L : ℚ) L L le_rfl]
      simp [activeCount, List.countP_cons]
      exact hrest
    · rw [ParticleSystem.updateN_split, ParticleSystem.updateN_origin w h hw
        hh dt m rest hrest c sz (L : ℚ) L L le_rfl]
      show activeCount (ParticleSystem.update
          { max_particles := m, width := w, height := h,
            pool :=
              { x := 0, y := 0, dx := 0, dy := 0, color := c, size := sz,
                duration := (L : ℚ) - (L : ℚ), start_duration := (L : ℚ),
                active := true } :: rest } dt).pool = 0
      unfold ParticleSystem.update
      simp only [List.map_cons]
      rw [ParticleSystem.map_stepParticleS_inactive w h dt rest hrest,
        ParticleSystem.stepParticleS_expired w h dt _ rfl (by
          dsimp only
          norm_num)]
      simp [activeCount, List.countP_cons]
      exact hrest

/-- C8 amended-claim witness: ParticlePool with L = 3, dt = 2 (gone after
ceil(3/2) = 2 updates); ParticleSystem with L = 2 (released on call 3);
ParticleManager pool untouched by 5 updates. -/
theorem particle_lifetime_release_witness :
    (ParticlePool.updateN
        (ParticlePool.create_particle
          { particles := [], max_particles := 10 } 0 0 0 0 0 5 3) 2
        (⌈(3 : ℚ) / 2⌉).toNat).particles.length = 0 ∧
    activeCount (ParticleSystem.updateN
        (ParticleSystem.create_particle
          { max_particles := 4, width := 50, height := 50,
            pool := [blankParticle] }
          0 0 0 5 0 0 ((2 : Nat) : ℚ)) 1 3).pool = 0 ∧
    (ParticleManager.updateN (ParticleManager.init 7) 1 5).particle_pool =
      (ParticleManager.init 7).particle_pool := by
  refine ⟨?_, ?_, particle_lifetime_release.2.2 (ParticleManager.init 7) 1 5⟩
  · exact (particle_lifetime_release.1 10 0 0 0 0 0 5 3 2 (by norm_num)
      (by norm_num) (by decide)).2
  · exact (particle_lifetime_release.2.1 50 50 4 blankParticle [] 0 5 2 1
      (by norm_num) (by norm_num) rfl (by intro r hr; cases hr)
      (by decide)).2.2

namespace ColorsLevel

/-! ## _check_collision (src/levels/colors_level.py)

math.hypot's result is passed in as `dist` and certified in the theorems by
0 ≤ dist ∧ dist² = Δx² + Δy².  The random draws the function can consume
are passed explicitly: the emergency-branch velocity reassignments
(uniform(-8,8)) and the small jitter (uniform(-0.1,0.1)) added to all four
velocity components at the end.  The 3-particle burst spawned at the
collision midpoint feeds the particle store and does not alter the dots. -/

structure CollisionRand where
  em1x : ℚ
  em1y : ℚ
  em2x : ℚ
  em2y : ℚ
  j1x : ℚ
  j1y : ℚ
  j2x : ℚ
  j2y : ℚ
  deriving Repr, DecidableEq

/-- Collision normal: Δ/dist when dist > 0, else the (1, 0) fallback. -/
def normalX (d1 d2 : Dot) (dist : ℚ) : ℚ :=
  if 0 < dist then (d1.x - d2.x) / dist else 1

def normalY (d1 d2 : Dot) (dist : ℚ) : ℚ :=
  if 0 < dist then (d1.y - d2.y) / dist else 0

/-- separation_factor: 1.0 normally, 2.0 + (5 - distance)*0.5 for the
emergency branch (distance < 5). -/
def sepFactor (dist : ℚ) : ℚ :=
  if dist < 5 then 2 + (5 - dist) * 0.5 else 1

/-- The body of the "moving toward each other" branch: velocities are
reassigned to the emergency draws (dist < 5) or swapped scaled by
DOT_SPEED_REDUCTION; both positions are pushed apart by overlap/2 along the
normal times the separation factor; finally the random jitter is added to
every velocity component. -/
def resolve (d1 d2 : Dot) (dist : ℚ) (r : CollisionRand) (nx ny : ℚ) :
    Dot × Dot :=
  let overlap := d1.radius + d2.radius - dist
  let v1 : ℚ × ℚ :=
    if dist < 5 then (r.em1x, r.em1y)
    else (d2.dx * DOT_SPEED_REDUCTION, d2.dy * DOT_SPEED_REDUCTION)
  let v2 : ℚ × ℚ :=
    if dist < 5 then (r.em2x, r.em2y)
    else (d1.dx * DOT_SPEED_REDUCTION, d1.dy * DOT_SPEED_REDUCTION)
  ({ d1 with
      x := d1.x + overlap / 2 * nx * sepFactor dist
      y := d1.y + overlap / 2 * ny * sepFactor dist
      dx := v1.1 + r.j1x
      dy := v1.2 + r.j1y },
   { d2 with
      x := d2.x - overlap / 2 * nx * sepFactor dist
      y := d2.y - overlap / 2 * ny * sepFactor dist
      dx := v2.1 + r.j2x
      dy := v2.2 + r.j2y })

/-- _check_collision: no collision when dist ≥ sum of radii or when the
pair is separating; otherwise resolve. -/
def check_collision (d1 d2 : Dot) (dist : ℚ) (r : CollisionRand) :
    Bool × Dot × Dot :=
  if dist < d1.radius + d2.radius then
    if (d1.dx - d2.dx) * normalX d1 d2 dist +
        (d1.dy - d2.dy) * normalY d1 d2 dist < 0 then
      (true, resolve d1 d2 dist r (normalX d1 d2 dist) (normalY d1 d2 dist))
    else (false, d1, d2)
  else (false, d1, d2)

theorem check_collision_handled (d1 d2 : Dot) (dist : ℚ)
    (r : CollisionRand) (h : (check_collision d1 d2 dist r).1 = true) :
    dist < d1.radius + d2.radius ∧
    check_collision d1 d2 dist r =
      (true, resolve d1 d2 dist r (normalX d1 d2 dist)
        (normalY d1 d2 dist)) := by
  unfold check_collision at h ⊢
  split_ifs at h ⊢ with h1 h2
  exact ⟨h1, rfl⟩

theorem one_le_sepFactor (dist : ℚ) (hd : 0 ≤ dist) : 1 ≤ sepFactor dist := by
  unfold sepFactor
  by_cases h : dist < 5
  · rw [if_pos h]
    nlinarith
  · rw [if_neg h]

theorem resolve_diff_x (d1 d2 : Dot) (dist : ℚ) (r : CollisionRand)
    (nx ny : ℚ) :
    (resolve d1 d2 dist r nx ny).1.x - (resolve d1 d2 dist r nx ny).2.x =
      (d1.x - d2.x) +
        (d1.radius + d2.radius - dist) * sepFactor dist * nx := by
  unfold resolve
  dsimp only
  ring

theorem resolve_diff_y (d1 d2 : Dot) (dist : ℚ) (r : CollisionRand)
    (nx ny : ℚ) :
    (resolve d1 d2 dist r nx ny).1.y - (resolve d1 d2 dist r nx ny).2.y =
      (d1.y - d2.y) +
        (d1.radius + d2.radius - dist) * sepFactor dist * ny := by
  unfold resolve
  dsimp only
  ring

theorem sq_sum_scale (a b dist os : ℚ) (hd : dist ≠ 0)
    (hcert : dist ^ 2 = a ^ 2 + b ^ 2) :
    (a + os * (a / dist)) ^ 2 + (b + os * (b / dist)) ^ 2 =
      (dist + os) ^ 2 := by
  have h1 : a + os * (a / dist) = a * (dist + os) / dist := by
    field_simp
    ring
  have h2 : b + os * (b / dist) = b * (dist + os) / dist := by
    field_simp
    ring
  have expand : (a + os * (a / dist)) ^ 2 + (b + os * (b / dist)) ^ 2 =
      ((dist + os) / dist) ^ 2 * (a ^ 2 + b ^ 2) := by
    field_simp
    ring
  rw [expand, ← hcert, div_pow, div_mul_eq_mul_div,
    mul_div_assoc, div_self (pow_ne_zero 2 hd), mul_one]

/-- Any handled collision ends with squared center distance at least the
squared sum of radii: exactly the sum in the standard branch, more in the
emergency branch. -/
theorem resolve_separates (d1 d2 : Dot) (dist : ℚ) (r : CollisionRand)
    (hd0 : 0 ≤ dist)
    (hcert : dist ^ 2 = (d1.x - d2.x) ^ 2 + (d1.y - d2.y) ^ 2)
    (hdR : dist < d1.radius + d2.radius) :
    (d1.radius + d2.radius) ^ 2 ≤
      ((resolve d1 d2 dist r (normalX d1 d2 dist)
          (normalY d1 d2 dist)).1.x -
        (resolve d1 d2 dist r (normalX d1 d2 dist)
          (normalY d1 d2 dist)).2.x) ^ 2 +
      ((resolve d1 d2 dist r (normalX d1 d2 dist)
          (normalY d1 d2 dist)).1.y -
        (resolve d1 d2 dist r (normalX d1 d2 dist)
          (normalY d1 d2 dist)).2.y) ^ 2 := by
  rw [resolve_diff_x, resolve_diff_y]
  set R := d1.radius + d2.radius with hR
  have hR0 : 0 < R := lt_of_le_of_lt hd0 hdR
  set os := (R - dist) * sepFactor dist with hos
  have hsep1 : 1 ≤ sepFactor dist := one_le_sepFactor dist hd0
  have hover : 0 ≤ R - dist := by linarith
  have hosge : R - dist ≤ os := le_mul_of_one_le_right hover hsep1
  by_cases hpos : 0 < dist
  · rw [normalX, normalY, if_pos hpos, if_pos hpos]
    have key : ((d1.x - d2.x) + os * ((d1.x - d2.x) / dist)) ^ 2 +
        ((d1.y - d2.y) + os * ((d1.y - d2.y) / dist)) ^ 2 =
        (dist + os) ^ 2 :=
      sq_sum_scale (d1.x - d2.x) (d1.y - d2.y) dist os
        (ne_of_gt hpos) hcert
    have harr : ((d1.x - d2.x) + os * (d1.x - d2.x) / dist) ^ 2 +
        ((d1.y - d2.y) + os * (d1.y - d2.y) / dist) ^ 2 =
        (dist + os) ^ 2 := by
      rw [← key]
      ring_nf
    calc R ^ 2 ≤ (dist + os) ^ 2 := by
          apply pow_le_pow_left₀ (le_of_lt hR0)
          linarith
      _ = _ := by
          rw [← harr]
          ring_nf
  · have hd : dist = 0 := le_antisymm (not_lt.mp hpos) hd0
    have h0 : (d1.x - d2.x) ^ 2 + (d1.y - d2.y) ^ 2 = 0 := by
      rw [hd] at hcert
      simpa using hcert.symm
    have hx0 : d1.x - d2.x = 0 := by nlinarith [sq_nonneg (d1.x - d2.x), sq_nonneg (d1.y - d2.y)]
    have hy0 : d1.y - d2.y = 0 := by nlinarith [sq_nonneg (d1.x - d2.x), sq_nonneg (d1.y - d2.y)]
    rw [normalX, normalY, if_neg hpos, if_neg hpos, hx0, hy0]
    have hRos : R ≤ os := by linarith
    nlinarith [hRos, hR0]

/-- In the standard branch (dist ≥ 5) the post-resolution velocities are
exactly the swapped velocities scaled by DOT_SPEED_REDUCTION = 0.8, plus
the random jitter. -/
theorem resolve_velocity_standard (d1 d2 : Dot) (dist : ℚ)
    (r : CollisionRand) (nx ny : ℚ) (h5 : ¬(dist < 5)) :
    (resolve d1 d2 dist r nx ny).1.dx =
        d2.dx * DOT_SPEED_REDUCTION + r.j1x ∧
    (resolve d1 d2 dist r nx ny).1.dy =
        d2.dy * DOT_SPEED_REDUCTION + r.j1y ∧
    (resolve d1 d2 dist r nx ny).2.dx =
        d1.dx * DOT_SPEED_REDUCTION + r.j2x ∧
    (resolve d1 d2 dist r nx ny).2.dy =
        d1.dy * DOT_SPEED_REDUCTION + r.j2y := by
  unfold resolve
  simp [h5]

end ColorsLevel

/-- C5 counterexample: two radius-24 dots approaching head-on at speed 6 at
center distance 40, with an admissible jitter draw of 0.1 on dot1's x
velocity.  The collision is handled, but dot1's post-resolution squared
speed is (-4.7)² = 22.09, not (6·0.8)² = 23.04: the speed is NOT exactly
6 × 0.8, because the resolver adds a random nudge after the damped swap. -/
theorem collision_damping_counterexample :
    (ColorsLevel.check_collision
        { x := 100, y := 100, dx := 6, dy := 0, color := 0, radius := 24,
          target := false, alive := true }
        { x := 140, y := 100, dx := -6, dy := 0, color := 1, radius := 24,
          target := false, alive := true } 40
        { em1x := 0, em1y := 0, em2x := 0, em2y := 0,
          j1x := 0.1, j1y := 0, j2x := 0, j2y := 0 }).1 = true ∧
    |(0.1 : ℚ)| ≤ 0.1 ∧
    ((40 : ℚ) ^ 2 = (100 - 140) ^ 2 + (100 - 100) ^ 2) ∧
    ¬(((ColorsLevel.check_collision
        { x := 100, y := 100, dx := 6, dy := 0, color := 0, radius := 24,
          target := false, alive := true }
        { x := 140, y := 100, dx := -6, dy := 0, color := 1, radius := 24,
          target := false, alive := true } 40
        { em1x := 0, em1y := 0, em2x := 0, em2y := 0,
          j1x := 0.1, j1y := 0, j2x := 0, j2y := 0 }).2.1.dx) ^ 2 +
      ((ColorsLevel.check_collision
        { x := 100, y := 100, dx := 6, dy := 0, color := 0, radius := 24,
          target := false, alive := true }
        { x := 140, y := 100, dx := -6, dy := 0, color := 1, radius := 24,
          target := false, alive := true } 40
        { em1x := 0, em1y := 0, em2x := 0, em2y := 0,
          j1x := 0.1, j1y := 0, j2x := 0, j2y := 0 }).2.1.dy) ^ 2 =
      ((6 : ℚ) * DOT_SPEED_REDUCTION) ^ 2) := by
  refine ⟨?_, by rw [abs_le]; norm_num, by norm_num, ?_⟩ <;>
    · norm_num [ColorsLevel.check_collision, ColorsLevel.normalX,
        ColorsLevel.normalY, ColorsLevel.resolve, ColorsLevel.sepFactor,
        DOT_SPEED_REDUCTION]

/-- C5 (amended): for every handled collision (overlapping and approaching,
as tested by the resolver itself) one call leaves the squared center
distance at least the squared sum of radii — no overlap remains at all, so
in particular distance ≥ sum − ε; and in the standard branch (dist ≥ 5)
each post-resolution velocity equals the exchanged velocity scaled by
exactly DOT_SPEED_REDUCTION = 0.8 plus a random nudge bounded by 0.1 per
component — so the head-on radius-24 speed-6 scenario ends with each
velocity component within 0.1 of ±6·0.8, not exactly 6·0.8. -/
theorem collision_resolution_damped (d1 d2 : ColorsLevel.Dot) (dist : ℚ)
    (r : ColorsLevel.CollisionRand) (hd0 : 0 ≤ dist)
    (hcert : dist ^ 2 = (d1.x - d2.x) ^ 2 + (d1.y - d2.y) ^ 2)
    (hj1 : |r.j1x| ≤ 0.1) (hj2 : |r.j1y| ≤ 0.1) (hj3 : |r.j2x| ≤ 0.1)
    (hj4 : |r.j2y| ≤ 0.1)
    (hhandled : (ColorsLevel.check_collision d1 d2 dist r).1 = true) :
    (d1.radius + d2.radius) ^ 2 ≤
      ((ColorsLevel.check_collision d1 d2 dist r).2.1.x -
        (ColorsLevel.check_collision d1 d2 dist r).2.2.x) ^ 2 +
      ((ColorsLevel.check_collision d1 d2 dist r).2.1.y -
        (ColorsLevel.check_collision d1 d2 dist r).2.2.y) ^ 2 ∧
    (5 ≤ dist →
      |(ColorsLevel.check_collision d1 d2 dist r).2.1.dx -
          d2.dx * DOT_SPEED_REDUCTION| ≤ 0.1 ∧
      |(ColorsLevel.check_collision d1 d2 dist r).2.1.dy -
          d2.dy * DOT_SPEED_REDUCTION| ≤ 0.1 ∧
      |(ColorsLevel.check_collision d1 d2 dist r).2.2.dx -
          d1.dx * DOT_SPEED_REDUCTION| ≤ 0.1 ∧
      |(ColorsLevel.check_collision d1 d2 dist r).2.2.dy -
          d1.dy * DOT_SPEED_REDUCTION| ≤ 0.1) := by
  obtain ⟨hdR, heq⟩ := ColorsLevel.check_collision_handled d1 d2 dist r
    hhandled
  rw [heq]
  constructor
  · exact ColorsLevel.resolve_separates d1 d2 dist r hd0 hcert hdR
  · intro h5
    obtain ⟨e1, e2, e3, e4⟩ := ColorsLevel.resolve_velocity_standard d1 d2
      dist r (ColorsLevel.normalX d1 d2 dist)
      (ColorsLevel.normalY d1 d2 dist) (not_lt.mpr h5)
    refine ⟨?_, ?_, ?_, ?_⟩
    · show |(ColorsLevel.resolve d1 d2 dist r _ _).1.dx -
          d2.dx * DOT_SPEED_REDUCTION| ≤ 0.1
      rw [e1]
      simpa using hj1
    · show |(ColorsLevel.resolve d1 d2 dist r _ _).1.dy -
          d2.dy * DOT_SPEED_REDUCTION| ≤ 0.1
      rw [e2]
      simpa using hj2
    · show |(ColorsLevel.resolve d1 d2 dist r _ _).2.dx -
          d1.dx * DOT_SPEED_REDUCTION| ≤ 0.1
      rw [e3]
      simpa using hj3
    · show |(ColorsLevel.resolve d1 d2 dist r _ _).2.dy -
          d1.dy * DOT_SPEED_REDUCTION| ≤ 0.1
      rw [e4]
      simpa using hj4

/-- C5 amended-claim witness: the head-on radius-24 speed-6 scenario at
distance 40 with jitter 0.1: dot1's post-resolution x velocity is within
0.1 of -6·0.8. -/
theorem collision_resolution_damped_witness :
    |(ColorsLevel.check_collision
        { x := 100, y := 100, dx := 6, dy := 0, color := 0, radius := 24,
          target := false, alive := true }
        { x := 140, y := 100, dx := -6, dy := 0, color := 1, radius := 24,
          target := false, alive := true } 40
        { em1x := 0, em1y := 0, em2x := 0, em2y := 0,
          j1x := 0.1, j1y := 0, j2x := 0, j2y := 0 }).2.1.dx -
      (-6 : ℚ) * DOT_SPEED_REDUCTION| ≤ 0.1 := by
  have h := collision_resolution_damped
    { x := 100, y := 100, dx := 6, dy := 0, color := 0, radius := 24,
      target := false, alive := true }
    { x := 140, y := 100, dx := -6, dy := 0, color := 1, radius := 24,
      target := false, alive := true } 40
    { em1x := 0, em1y := 0, em2x := 0, em2y := 0,
      j1x := 0.1, j1y := 0, j2x := 0, j2y := 0 }
    (by norm_num) (by norm_num) (by rw [abs_le]; norm_num)
    (by rw [abs_le]; norm_num) (by rw [abs_le]; norm_num)
    (by rw [abs_le]; norm_num)
    (by norm_num [ColorsLevel.check_collision, ColorsLevel.normalX,
      ColorsLevel.normalY])
  exact (h.2 (by norm_num)).1

namespace ColorsLevel

/-- Python division: raises ZeroDivisionError on a zero denominator.  Used
to make "never divides by zero" a provable property of the embedding. -/
def pydiv (a b : ℚ) : Except String ℚ :=
  if b = 0 then Except.error "ZeroDivisionError" else Except.ok (a / b)

/-- The normal computation of _check_collision with explicit division. -/
def normalE (d1 d2 : Dot) (dist : ℚ) : Except String (ℚ × ℚ) :=
  if 0 < dist then do
    let nx ← pydiv (d1.x - d2.x) dist
    let ny ← pydiv (d1.y - d2.y) dist
    pure (nx, ny)
  else pure (1, 0)

/-- _check_collision with every division routed through pydiv. -/
def check_collisionE (d1 d2 : Dot) (dist : ℚ) (r : CollisionRand) :
    Except String (Bool × Dot × Dot) :=
  if dist < d1.radius + d2.radius then do
    let n ← normalE d1 d2 dist
    if (d1.dx - d2.dx) * n.1 + (d1.dy - d2.dy) * n.2 < 0 then
      pure (true, resolve d1 d2 dist r n.1 n.2)
    else pure (false, d1, d2)
  else pure (false, d1, d2)

/-- _apply_center_avoidance (src/levels/colors_level.py): inside the
avoidance radius 150, push the dot away from the center (cx, cy) with a
force that grows quadratically toward the center, using a random direction
(rnx, rny) at exact center; then scale the velocity up when the resulting
speed cur_speed (hypot of the new velocity, passed in) is below 1, dividing
by max(0.1, cur_speed). -/
def apply_center_avoidance (cx cy : ℚ) (d : Dot) (dist cur_speed : ℚ)
    (rnx rny : ℚ) : Dot :=
  if dist < 150 then
    let nx := if 0 < dist then (d.x - cx) / dist else rnx
    let ny := if 0 < dist then (d.y - cy) / dist else rny
    let fm := 1 - dist / 150
    let ddx := d.dx + nx * (fm * fm) * 0.5
    let ddy := d.dy + ny * (fm * fm) * 0.5
    if cur_speed < 1 then
      { d with dx := ddx * (1 / max 0.1 cur_speed),
               dy := ddy * (1 / max 0.1 cur_speed) }
    else { d with dx := ddx, dy := ddy }
  else d

/-- _apply_center_avoidance with every division routed through pydiv. -/
def apply_center_avoidanceE (cx cy : ℚ) (d : Dot) (dist cur_speed : ℚ)
    (rnx rny : ℚ) : Except String Dot :=
  if dist < 150 then do
    let n ←
      if 0 < dist then do
        let nx ← pydiv (d.x - cx) dist
        let ny ← pydiv (d.y - cy) dist
        pure (nx, ny)
      else pure (rnx, rny)
    let fquot ← pydiv dist 150
    let fm := 1 - fquot
    let ddx := d.dx + n.1 * (fm * fm) * 0.5
    let ddy := d.dy + n.2 * (fm * fm) * 0.5
    if cur_speed < 1 then do
      let ratio ← pydiv 1 (max 0.1 cur_speed)
      pure { d with dx := ddx * ratio, dy := ddy * ratio }
    else pure { d with dx := ddx, dy := ddy }
  else pure d

theorem normalE_eq (d1 d2 : Dot) (dist : ℚ) :
    normalE d1 d2 dist =
      Except.ok (normalX d1 d2 dist, normalY d1 d2 dist) := by
  unfold normalE normalX normalY pydiv
  by_cases h : 0 < dist
  · have hne : ¬(dist = 0) := ne_of_gt h
    simp [h, hne, Bind.bind, Except.bind, Pure.pure, Except.pure]
  · simp [h, Pure.pure, Except.pure]

/-- Velocities of the emergency branch (dist < 5): both dots get the large
random reassignments, plus the jitter. -/
theorem resolve_velocity_emergency (d1 d2 : Dot) (dist : ℚ)
    (r : CollisionRand) (nx ny : ℚ) (h5 : dist < 5) :
    (resolve d1 d2 dist r nx ny).1.dx = r.em1x + r.j1x ∧
    (resolve d1 d2 dist r nx ny).1.dy = r.em1y + r.j1y ∧
    (resolve d1 d2 dist r nx ny).2.dx = r.em2x + r.j2x ∧
    (resolve d1 d2 dist r nx ny).2.dy = r.em2y + r.j2y := by
  unfold resolve
  simp [h5]

end ColorsLevel

/-- C10: the collision resolver and the center-avoidance steering are total:
with every Python division routed through an explicit ZeroDivisionError
check they succeed on every input (never raising to the caller), agreeing
with the pure embedding; and an exactly-zero-distance approaching pair is
handled by the emergency branch under the (1,0) normal fallback: both
velocities are reassigned to the large random draws (plus jitter) and the
pair is forced apart to 4.5 times the sum of radii along the fallback
normal. -/
theorem collision_resolver_total :
    (∀ (d1 d2 : ColorsLevel.Dot) (dist : ℚ)
        (r : ColorsLevel.CollisionRand),
      ColorsLevel.check_collisionE d1 d2 dist r =
        Except.ok (ColorsLevel.check_collision d1 d2 dist r)) ∧
    (∀ (cx cy : ℚ) (d : ColorsLevel.Dot) (dist cur_speed rnx rny : ℚ),
      ColorsLevel.apply_center_avoidanceE cx cy d dist cur_speed rnx rny =
        Except.ok
          (ColorsLevel.apply_center_avoidance cx cy d dist cur_speed
            rnx rny)) ∧
    (∀ (d1 d2 : ColorsLevel.Dot) (r : ColorsLevel.CollisionRand),
      d1.x = d2.x → d1.y = d2.y → 0 < d1.radius + d2.radius →
      d1.dx - d2.dx < 0 →
      (ColorsLevel.check_collision d1 d2 0 r).1 = true ∧
      (ColorsLevel.check_collision d1 d2 0 r).2.1.dx = r.em1x + r.j1x ∧
      (ColorsLevel.check_collision d1 d2 0 r).2.1.dy = r.em1y + r.j1y ∧
      (ColorsLevel.check_collision d1 d2 0 r).2.2.dx = r.em2x + r.j2x ∧
      (ColorsLevel.check_collision d1 d2 0 r).2.2.dy = r.em2y + r.j2y ∧
      (ColorsLevel.check_collision d1 d2 0 r).2.1.x -
          (ColorsLevel.check_collision d1 d2 0 r).2.2.x =
        9 / 2 * (d1.radius + d2.radius) ∧
      (ColorsLevel.check_collision d1 d2 0 r).2.1.y -
          (ColorsLevel.check_collision d1 d2 0 r).2.2.y = 0) := by
  refine ⟨?_, ?_, ?_⟩
  · intro d1 d2 dist r
    unfold ColorsLevel.check_collisionE ColorsLevel.check_collision
    by_cases hR : dist < d1.radius + d2.radius
    · rw [if_pos hR, if_pos hR, ColorsLevel.normalE_eq]
      by_cases happ : (d1.dx - d2.dx) * ColorsLevel.normalX d1 d2 dist +
          (d1.dy - d2.dy) * ColorsLevel.normalY d1 d2 dist < 0
      · simp [happ, Bind.bind, Except.bind, Pure.pure, Except.pure]
      · simp [happ, Bind.bind, Except.bind, Pure.pure, Except.pure]
    · rw [if_neg hR, if_neg hR]
      rfl
  · intro cx cy d dist cur_speed rnx rny
    unfold ColorsLevel.apply_center_avoidanceE
      ColorsLevel.apply_center_avoidance
    by_cases h150 : dist < 150
    · rw [if_pos h150, if_pos h150]
      have h150ne : (150 : ℚ) ≠ 0 := by norm_num
      have hmax : ¬(max (0.1 : ℚ) cur_speed = 0) := by
        have : (0 : ℚ) < max 0.1 cur_speed :=
          lt_of_lt_of_le (by norm_num) (le_max_left _ _)
        exact ne_of_gt this
      by_cases hpos : 0 < dist
      · have hne : ¬(dist = 0) := ne_of_gt hpos
        by_cases hslow : cur_speed < 1
        · simp [hpos, hslow, ColorsLevel.pydiv, hne, h150ne, hmax,
            Bind.bind, Except.bind, Pure.pure, Except.pure]
        · simp [hpos, hslow, ColorsLevel.pydiv, hne, h150ne, hmax,
            Bind.bind, Except.bind, Pure.pure, Except.pure]
      · by_cases hslow : cur_speed < 1
        · simp [hpos, hslow, ColorsLevel.pydiv, h150ne, hmax,
            Bind.bind, Except.bind, Pure.pure, Except.pure]
        · simp [hpos, hslow, ColorsLevel.pydiv, h150ne, hmax,
            Bind.bind, Except.bind, Pure.pure, Except.pure]
    · rw [if_neg h150, if_neg h150]
      rfl
  · intro d1 d2 r hx hy hR happ
    have hn0 : ¬(0 < (0 : ℚ)) := by norm_num
    have hnx : ColorsLevel.normalX d1 d2 0 = 1 := by
      unfold ColorsLevel.normalX
      rw [if_neg hn0]
    have hny : ColorsLevel.normalY d1 d2 0 = 0 := by
      unfold ColorsLevel.normalY
      rw [if_neg hn0]
    have hcond : (d1.dx - d2.dx) * ColorsLevel.normalX d1 d2 0 +
        (d1.dy - d2.dy) * ColorsLevel.normalY d1 d2 0 < 0 := by
      rw [hnx, hny]
      linarith
    have hcc : ColorsLevel.check_collision d1 d2 0 r =
        (true, ColorsLevel.resolve d1 d2 0 r (ColorsLevel.normalX d1 d2 0)
          (ColorsLevel.normalY d1 d2 0)) := by
      unfold ColorsLevel.check_collision
      rw [if_pos hR, if_pos hcond]
    obtain ⟨e1, e2, e3, e4⟩ := ColorsLevel.resolve_velocity_emergency d1 d2
      0 r (ColorsLevel.normalX d1 d2 0) (ColorsLevel.normalY d1 d2 0)
      (by norm_num)
    rw [hcc]
    refine ⟨rfl, e1, e2, e3, e4, ?_, ?_⟩
    · show (ColorsLevel.resolve d1 d2 0 r _ _).1.x -
          (ColorsLevel.resolve d1 d2 0 r _ _).2.x = _
      rw [ColorsLevel.resolve_diff_x, hnx, hx]
      have hsf : ColorsLevel.sepFactor 0 = 9 / 2 := by
        unfold ColorsLevel.sepFactor
        norm_num
      rw [hsf]
      ring
    · show (ColorsLevel.resolve d1 d2 0 r _ _).1.y -
          (ColorsLevel.resolve d1 d2 0 r _ _).2.y = _
      rw [ColorsLevel.resolve_diff_y, hny, hy]
      ring

/-- C10 witness: a concrete coincident approaching pair is handled with the
(1,0) fallback normal, the emergency velocity reassignment, and 4.5× sum of
radii separation. -/
theorem collision_resolver_total_witness :
    (ColorsLevel.check_collision
        { x := 50, y := 50, dx := 1, dy := 0, color := 0, radius := 24,
          target := false, alive := true }
        { x := 50, y := 50, dx := 3, dy := 0, color := 1, radius := 24,
          target := false, alive := true } 0
        { em1x := 7, em1y := -3, em2x := 2, em2y := 4,
          j1x := 0.05, j1y := 0, j2x := 0, j2y := 0 }).1 = true ∧
    (ColorsLevel.check_collision
        { x := 50, y := 50, dx := 1, dy := 0, color := 0, radius := 24,
          target := false, alive := true }
        { x := 50, y := 50, dx := 3, dy := 0, color := 1, radius := 24,
          target := false, alive := true } 0
        { em1x := 7, em1y := -3, em2x := 2, em2y := 4,
          j1x := 0.05, j1y := 0, j2x := 0, j2y := 0 }).2.1.dx =
      7 + 0.05 := by
  have h := collision_resolver_total.2.2
    { x := 50, y := 50, dx := 1, dy := 0, color := 0, radius := 24,
      target := false, alive := true }
    { x := 50, y := 50, dx := 3, dy := 0, color := 1, radius := 24,
      target := false, alive := true }
    { em1x := 7, em1y := -3, em2x := 2, em2y := 4,
      j1x := 0.05, j1y := 0, j2x := 0, j2y := 0 }
    rfl rfl (by norm_num) (by norm_num)
  exact ⟨h.1, h.2.1⟩

namespace ColorsLevel

/-! ## Spatial-grid pair enumeration (_update_dots, grid branch)

The grid is rebuilt from the alive dots each tick: each alive dot is
bucketed by (int(x / cell_size), int(y / cell_size)); then per cell the
loop tests all pairs within the cell (j starting at i+1) and tests each
dot1 against every dot in the four forward neighbor cells.  Dots are
identified by their index in self.dots; cell iteration order (the dict's
key order) does not affect how often a given pair is tested.  The dead-dot
re-checks inside the loops are vacuous here since only alive dots are ever
bucketed (dots are not killed during the pass). -/

def dfltDot : Dot :=
  { x := 0, y := 0, dx := 0, dy := 0, color := 0, radius := 0,
    target := false, alive := false }

/-- Python int(): truncation toward zero. -/
def pyInt (q : ℚ) : ℤ := if 0 ≤ q then ⌊q⌋ else -⌊-q⌋

/-- Grid key of a dot: (int(x / cell_size), int(y / cell_size)). -/
def cellOf (s : ℚ) (d : Dot) : ℤ × ℤ := (pyInt (d.x / s), pyInt (d.y / s))

/-- grid[c]: indices of the alive dots bucketed in cell c, in list order. -/
def gridCell (s : ℚ) (dots : List Dot) (c : ℤ × ℤ) : List Nat :=
  (List.range dots.length).filter
    (fun i => (dots.getD i dfltDot).alive &&
      decide (cellOf s (dots.getD i dfltDot) = c))

/-- The grid's key set (each occupied cell once). -/
def occupiedCells (s : ℚ) (dots : List Dot) : List (ℤ × ℤ) :=
  (((List.range dots.length).filter
      (fun i => (dots.getD i dfltDot).alive)).map
    (fun i => cellOf s (dots.getD i dfltDot))).dedup

/-- The fixed forward neighbor offsets: right, bottom-right, bottom,
bottom-left. -/
def forwardNeighbors : List (ℤ × ℤ) := [(1, 0), (1, 1), (0, 1), (-1, 1)]

/-- The per-cell loop: dot1 runs down the cell list; same-cell pairs are
emitted against the suffix after dot1, then dot1 meets every dot of the
(concatenated) forward neighbor cells. -/
def cellPairs : List Nat → List Nat → List (Nat × Nat)
  | [], _ => []
  | i :: rest, nbr =>
      rest.map (fun j => (i, j)) ++ nbr.map (fun j => (i, j)) ++
        cellPairs rest nbr

/-- The dots of the four forward neighbor cells of c, in loop order. -/
def nbrDots (s : ℚ) (dots : List Dot) (c : ℤ × ℤ) : List Nat :=
  forwardNeighbors.flatMap (fun d => gridCell s dots (c.1 + d.1, c.2 + d.2))

/-- Every (ordered) pair tested during one collision pass. -/
def testedPairs (s : ℚ) (dots : List Dot) : List (Nat × Nat) :=
  (occupiedCells s dots).flatMap
    (fun c => cellPairs (gridCell s dots c) (nbrDots s dots c))

/-- How many times the unordered pair {p, q} is tested in one pass. -/
def pairCount (s : ℚ) (dots : List Dot) (p q : Nat) : Nat :=
  (testedPairs s dots).count (p, q) + (testedPairs s dots).count (q, p)

/-- Reference count for a pair whose cells differ by Δ: once if the same
cell, once if Δ is a forward or backward neighbor offset, else zero. -/
def adjCount (Δ : ℤ × ℤ) : Nat :=
  (if Δ = (0, 0) then 1 else 0) +
    (if Δ ∈ forwardNeighbors then 1 else 0) +
    (if (-Δ.1, -Δ.2) ∈ forwardNeighbors then 1 else 0)

theorem count_map_pair (l : List Nat) (i p q : Nat) :
    (l.map (fun j => (i, j))).count (p, q) =
      if i = p then l.count q else 0 := by
  induction l with
  | nil => simp
  | cons a t ih =>
      simp only [List.map_cons, List.count_cons, ih, Prod.mk.injEq]
      by_cases hip : i = p
      · by_cases haq : a = q
        · simp [hip, haq, List.count_cons]
        · simp [hip, haq, List.count_cons]
      · simp [hip]

theorem count_cons_if (a x : Nat) (l : List Nat) :
    (a :: l).count x = (if a = x then 1 else 0) + l.count x := by
  by_cases h : a = x
  · simp [List.count_cons, h]
    omega
  · simp [List.count_cons, h]

theorem count_cellPairs (p q : Nat) (hne : p ≠ q) :
    ∀ (l nbr : List Nat),
      (cellPairs l nbr).count (p, q) + (cellPairs l nbr).count (q, p) =
        l.count p * l.count q + l.count p * nbr.count q +
          l.count q * nbr.count p := by
  intro l
  induction l with
  | nil => intro nbr; simp [cellPairs]
  | cons i t ih =>
      intro nbr
      have hqp : q ≠ p := fun h => hne h.symm
      have H := ih nbr
      simp only [cellPairs, List.count_append, count_map_pair,
        count_cons_if]
      by_cases hip : i = p
      · have hiq : ¬(i = q) := fun h => hne (hip.symm.trans h)
        simp only [hip, hiq, if_true, if_false, if_pos rfl, if_neg hne]
        linarith [H]
      · by_cases hiq : i = q
        · have hnpi : ¬(i = p) := hip
          simp only [hiq, hip, if_true, if_false, if_pos rfl, if_neg hqp]
          linarith [H]
        · simp only [hip, hiq, if_false]
          linarith [H]

theorem count_gridCell (s : ℚ) (dots : List Dot) (c : ℤ × ℤ) (k : Nat) :
    (gridCell s dots c).count k =
      if k < dots.length ∧ (dots.getD k dfltDot).alive = true ∧
          cellOf s (dots.getD k dfltDot) = c then 1 else 0 := by
  unfold gridCell
  by_cases h : k < dots.length ∧ (dots.getD k dfltDot).alive = true ∧
      cellOf s (dots.getD k dfltDot) = c
  · rw [if_pos h]
    apply List.count_eq_one_of_mem
    · exact (List.nodup_range _).filter _
    · rw [List.mem_filter, List.mem_range]
      refine ⟨h.1, ?_⟩
      simp only [Bool.and_eq_true, decide_eq_true_eq]
      exact ⟨h.2.1, h.2.2⟩
  · rw [if_neg h]
    apply List.count_eq_zero_of_not_mem
    intro hmem
    rw [List.mem_filter, List.mem_range] at hmem
    apply h
    have h2 := hmem.2
    simp only [Bool.and_eq_true, decide_eq_true_eq] at h2
    exact ⟨hmem.1, h2.1, h2.2⟩

/-- A dot known to be in range and alive is counted in exactly the cell it
belongs to. -/
theorem count_gridCell_alive (s : ℚ) (dots : List Dot) (c : ℤ × ℤ)
    (k : Nat) (hk : k < dots.length)
    (ha : (dots.getD k dfltDot).alive = true) :
    (gridCell s dots c).count k =
      if cellOf s (dots.getD k dfltDot) = c then 1 else 0 := by
  rw [count_gridCell]
  by_cases hc : cellOf s (dots.getD k dfltDot) = c
  · rw [if_pos ⟨hk, ha, hc⟩, if_pos hc]
  · rw [if_neg (fun hh => hc hh.2.2), if_neg hc]

theorem count_nbrDots_alive (s : ℚ) (dots : List Dot) (c : ℤ × ℤ)
    (k : Nat) (hk : k < dots.length)
    (ha : (dots.getD k dfltDot).alive = true) :
    (nbrDots s dots c).count k =
      if ((cellOf s (dots.getD k dfltDot)).1 - c.1,
          (cellOf s (dots.getD k dfltDot)).2 - c.2) ∈ forwardNeighbors
      then 1 else 0 := by
  unfold nbrDots
  rw [List.count_flatMap]
  show (List.map
      (List.count k ∘ fun d => gridCell s dots (c.1 + d.1, c.2 + d.2))
      forwardNeighbors).sum = _
  simp only [forwardNeighbors, List.map_cons, List.map_nil,
    Function.comp_apply, List.sum_cons, List.sum_nil,
    count_gridCell_alive s dots _ k hk ha, List.mem_cons,
    List.not_mem_nil, or_false]
  rcases he : cellOf s (dots.getD k dfltDot) with ⟨a, b⟩
  rcases c with ⟨u, v⟩
  simp only [Prod.mk.injEq]
  split_ifs <;> omega

theorem mem_occupiedCells (s : ℚ) (dots : List Dot) (k : Nat)
    (hk : k < dots.length) (ha : (dots.getD k dfltDot).alive = true) :
    cellOf s (dots.getD k dfltDot) ∈ occupiedCells s dots := by
  unfold occupiedCells
  rw [List.mem_dedup, List.mem_map]
  refine ⟨k, ?_, rfl⟩
  rw [List.mem_filter, List.mem_range]
  exact ⟨hk, ha⟩

theorem nodup_occupiedCells (s : ℚ) (dots : List Dot) :
    (occupiedCells s dots).Nodup :=
  List.nodup_dedup _

theorem sum_map_add_distrib {α : Type} (L : List α) (f g : α → Nat) :
    (L.map (fun c => f c + g c)).sum = (L.map f).sum + (L.map g).sum := by
  induction L with
  | nil => rfl
  | cons x t ih =>
      simp only [List.map_cons, List.sum_cons, ih]
      omega

theorem sum_map_zero {α : Type} (L : List α) (f : α → Nat)
    (hz : ∀ c ∈ L, f c = 0) : (L.map f).sum = 0 := by
  induction L with
  | nil => rfl
  | cons x t ih =>
      simp only [List.map_cons, List.sum_cons]
      rw [hz x (List.mem_cons_self x t),
        ih (fun c hc => hz c (List.mem_cons_of_mem x hc))]

theorem sum_map_support_single {α : Type} [DecidableEq α] (L : List α)
    (f : α → Nat) (a : α) (hN : L.Nodup) (ha : a ∈ L)
    (hz : ∀ c ∈ L, c ≠ a → f c = 0) : (L.map f).sum = f a := by
  induction L with
  | nil => cases ha
  | cons x t ih =>
      simp only [List.map_cons, List.sum_cons]
      rcases List.mem_cons.mp ha with rfl | hat
      · rw [sum_map_zero t f (fun c hc => hz c (List.mem_cons_of_mem _ hc)
          (fun hca => (List.nodup_cons.mp hN).1 (hca ▸ hc)))]
        omega
      · have hxa : x ≠ a := fun hxa => (List.nodup_cons.mp hN).1 (hxa ▸ hat)
        rw [hz x (List.mem_cons_self x t) hxa,
          ih (List.nodup_cons.mp hN).2 hat
            (fun c hc hca => hz c (List.mem_cons_of_mem x hc) hca)]
        omega

theorem sum_map_support_pair {α : Type} [DecidableEq α] (L : List α)
    (f : α → Nat) (a b : α) (hab : a ≠ b) (hN : L.Nodup) (ha : a ∈ L)
    (hb : b ∈ L) (hz : ∀ c ∈ L, c ≠ a → c ≠ b → f c = 0) :
    (L.map f).sum = f a + f b := by
  induction L with
  | nil => cases ha
  | cons x t ih =>
      simp only [List.map_cons, List.sum_cons]
      rcases List.mem_cons.mp ha with rfl | hat
      · have hbt : b ∈ t := by
          rcases List.mem_cons.mp hb with hbx | hbt
          · exact absurd hbx.symm hab
          · exact hbt
        rw [sum_map_support_single t f b (List.nodup_cons.mp hN).2 hbt
          (fun c hc hcb => hz c (List.mem_cons_of_mem _ hc)
            (fun hca => (List.nodup_cons.mp hN).1 (hca ▸ hc)) hcb)]
      · rcases List.mem_cons.mp hb with rfl | hbt
        · have hat' : a ∈ t := hat
          rw [sum_map_support_single t f a (List.nodup_cons.mp hN).2 hat'
            (fun c hc hca => hz c (List.mem_cons_of_mem _ hc) hca
              (fun hcb => (List.nodup_cons.mp hN).1 (hcb ▸ hc)))]
          omega
        · have hxa : x ≠ a := fun hxa =>
            (List.nodup_cons.mp hN).1 (hxa ▸ hat)
          have hxb : x ≠ b := fun hxb =>
            (List.nodup_cons.mp hN).1 (hxb ▸ hbt)
          rw [hz x (List.mem_cons_self x t) hxa hxb,
            ih (List.nodup_cons.mp hN).2 hat hbt
              (fun c hc hca hcb => hz c (List.mem_cons_of_mem x hc) hca hcb)]
          omega

theorem pairCount_eq_adjCount (s : ℚ) (dots : List Dot) (p q : Nat)
    (hp : p < dots.length) (hq : q < dots.length) (hne : p ≠ q)
    (hap : (dots.getD p dfltDot).alive = true)
    (haq : (dots.getD q dfltDot).alive = true) :
    pairCount s dots p q =
      adjCount ((cellOf s (dots.getD q dfltDot)).1 -
          (cellOf s (dots.getD p dfltDot)).1,
        (cellOf s (dots.getD q dfltDot)).2 -
          (cellOf s (dots.getD p dfltDot)).2) := by
  set dp := dots.getD p dfltDot with hdp
  set dq := dots.getD q dfltDot with hdq
  set cp := cellOf s dp with hcpd
  set cq := cellOf s dq with hcqd
  have hsum : pairCount s dots p q =
      ((occupiedCells s dots).map (fun c =>
        (cellPairs (gridCell s dots c) (nbrDots s dots c)).count (p, q) +
        (cellPairs (gridCell s dots c) (nbrDots s dots c)).count
          (q, p))).sum := by
    unfold pairCount testedPairs
    rw [List.count_flatMap, List.count_flatMap, ← sum_map_add_distrib]
    rfl
  have feval : ∀ c,
      (cellPairs (gridCell s dots c) (nbrDots s dots c)).count (p, q) +
        (cellPairs (gridCell s dots c) (nbrDots s dots c)).count (q, p) =
      (if cp = c then 1 else 0) * (if cq = c then 1 else 0) +
        (if cp = c then 1 else 0) *
          (if (cq.1 - c.1, cq.2 - c.2) ∈ forwardNeighbors then 1 else 0) +
        (if cq = c then 1 else 0) *
          (if (cp.1 - c.1, cp.2 - c.2) ∈ forwardNeighbors then 1
           else 0) := by
    intro c
    rw [count_cellPairs p q hne, count_gridCell_alive s dots c p hp hap,
      count_gridCell_alive s dots c q hq haq,
      count_nbrDots_alive s dots c p hp hap,
      count_nbrDots_alive s dots c q hq haq]
  rw [hsum]
  by_cases hcc : cp = cq
  · rw [List.map_congr_left (fun c _ => feval c),
      sum_map_support_single _ _ cp (nodup_occupiedCells s dots)
        (mem_occupiedCells s dots p hp hap)
        (fun c _ hcne => by
          have h1 : ¬(cp = c) := fun h => hcne h.symm
          have h2 : ¬(cq = c) := fun h => hcne ((hcc.trans h).symm)
          simp [h1, h2])]
    rw [← hcc]
    simp only [sub_self, if_pos rfl]
    norm_num [adjCount, forwardNeighbors]
  · rw [List.map_congr_left (fun c _ => feval c),
      sum_map_support_pair _ _ cp cq hcc (nodup_occupiedCells s dots)
        (mem_occupiedCells s dots p hp hap)
        (mem_occupiedCells s dots q hq haq)
        (fun c _ h1 h2 => by
          have h1' : ¬(cp = c) := fun h => h1 h.symm
          have h2' : ¬(cq = c) := fun h => h2 h.symm
          simp [h1', h2'])]
    have hqp : ¬(cq = cp) := fun h => hcc h.symm
    have hΔne : ¬((cq.1 - cp.1, cq.2 - cp.2) = ((0 : ℤ), (0 : ℤ))) := by
      intro h
      rw [Prod.mk.injEq] at h
      apply hcc
      have h1 : cp.1 = cq.1 := by omega
      have h2 : cp.2 = cq.2 := by omega
      exact Prod.ext h1 h2
    unfold adjCount
    rw [if_neg hΔne]
    have hnegpair : ((-(cq.1 - cp.1) : ℤ), (-(cq.2 - cp.2) : ℤ)) =
        (cp.1 - cq.1, cp.2 - cq.2) := by
      rw [Prod.mk.injEq]
      constructor <;> ring
    simp only [hnegpair]
    simp [hcc, hqp]

theorem adjCount_le_one (d : ℤ × ℤ) : adjCount d ≤ 1 := by
  rcases d with ⟨a, b⟩
  simp only [adjCount, forwardNeighbors, List.mem_cons, List.not_mem_nil,
    or_false, Prod.mk.injEq]
  split_ifs <;> omega

theorem adjCount_eq_one_of_close (d : ℤ × ℤ) (h1 : -1 ≤ d.1)
    (h2 : d.1 ≤ 1) (h3 : -1 ≤ d.2) (h4 : d.2 ≤ 1) : adjCount d = 1 := by
  rcases d with ⟨a, b⟩
  simp only [adjCount, forwardNeighbors, List.mem_cons, List.not_mem_nil,
    or_false, Prod.mk.injEq]
  simp only at h1 h2 h3 h4
  split_ifs <;> omega

theorem floor_diff_le_one (u v : ℚ) (h1 : u - v < 1) (h2 : v - u < 1) :
    ⌊u⌋ - ⌊v⌋ ≤ 1 ∧ ⌊v⌋ - ⌊u⌋ ≤ 1 := by
  have hu1 : (⌊u⌋ : ℚ) ≤ u := Int.floor_le u
  have hu2 : u < ⌊u⌋ + 1 := Int.lt_floor_add_one u
  have hv1 : (⌊v⌋ : ℚ) ≤ v := Int.floor_le v
  have hv2 : v < ⌊v⌋ + 1 := Int.lt_floor_add_one v
  have ha : (⌊u⌋ : ℚ) < (⌊v⌋ : ℚ) + 2 := by linarith
  have hb : (⌊v⌋ : ℚ) < (⌊u⌋ : ℚ) + 2 := by linarith
  have ha' : ⌊u⌋ < ⌊v⌋ + 2 := by exact_mod_cast ha
  have hb' : ⌊v⌋ < ⌊u⌋ + 2 := by exact_mod_cast hb
  omega

theorem cell_coord_close (s x1 x2 : ℚ) (hs : 0 < s) (hx1 : 0 ≤ x1)
    (hx2 : 0 ≤ x2) (h : |x1 - x2| < s) :
    pyInt (x1 / s) - pyInt (x2 / s) ≤ 1 ∧
      pyInt (x2 / s) - pyInt (x1 / s) ≤ 1 := by
  have hq1 : 0 ≤ x1 / s := div_nonneg hx1 (le_of_lt hs)
  have hq2 : 0 ≤ x2 / s := div_nonneg hx2 (le_of_lt hs)
  rw [pyInt, if_pos hq1, pyInt, if_pos hq2]
  apply floor_diff_le_one
  · rw [div_sub_div_same, div_lt_one hs]
    exact lt_of_le_of_lt (le_abs_self _) h
  · rw [div_sub_div_same, div_lt_one hs]
    rw [abs_sub_comm] at h
    exact lt_of_le_of_lt (le_abs_self _) h

theorem abs_lt_of_sq_lt (a c : ℚ) (h : a ^ 2 < c ^ 2) (hc : 0 ≤ c) :
    |a| < c := by
  by_contra hcon
  push_neg at hcon
  nlinarith [sq_abs a, abs_nonneg a]

end ColorsLevel

/-- C4: In one collision pass with the spatial grid, an unordered pair of
distinct alive dots is never tested twice (same-cell pairs come only from
the intra-cell i<j loop, cross-cell pairs only once via the forward
neighbor set right/bottom-right/bottom/bottom-left or, seen from the other
cell, its mirror); and when the pair is in collision range (squared center
distance below the squared sum of radii) and the cell size is at least the
sum of radii, the pair is tested exactly once — no omission.  Positions
are nonnegative as maintained by the wall clamping, so Python's int()
truncation agrees with floor. -/
theorem grid_pair_enumeration (s : ℚ) (dots : List ColorsLevel.Dot)
    (p q : Nat) (hp : p < dots.length) (hq : q < dots.length) (hne : p ≠ q)
    (hap : (dots.getD p ColorsLevel.dfltDot).alive = true)
    (haq : (dots.getD q ColorsLevel.dfltDot).alive = true)
    (hs : 0 < s)
    (hxp : 0 ≤ (dots.getD p ColorsLevel.dfltDot).x)
    (hyp2 : 0 ≤ (dots.getD p ColorsLevel.dfltDot).y)
    (hxq : 0 ≤ (dots.getD q ColorsLevel.dfltDot).x)
    (hyq : 0 ≤ (dots.getD q ColorsLevel.dfltDot).y) :
    ColorsLevel.pairCount s dots p q ≤ 1 ∧
    (((dots.getD p ColorsLevel.dfltDot).x -
          (dots.getD q ColorsLevel.dfltDot).x) ^ 2 +
        ((dots.getD p ColorsLevel.dfltDot).y -
          (dots.getD q ColorsLevel.dfltDot).y) ^ 2 <
        ((dots.getD p ColorsLevel.dfltDot).radius +
          (dots.getD q ColorsLevel.dfltDot).radius) ^ 2 →
      0 ≤ (dots.getD p ColorsLevel.dfltDot).radius +
        (dots.getD q ColorsLevel.dfltDot).radius →
      (dots.getD p ColorsLevel.dfltDot).radius +
        (dots.getD q ColorsLevel.dfltDot).radius ≤ s →
      ColorsLevel.pairCount s dots p q = 1) := by
  rw [ColorsLevel.pairCount_eq_adjCount s dots p q hp hq hne hap haq]
  refine ⟨ColorsLevel.adjCount_le_one _, ?_⟩
  intro hrange hr0 hrs
  set dp := dots.getD p ColorsLevel.dfltDot with hdp
  set dq := dots.getD q ColorsLevel.dfltDot with hdq
  have hsums : (dp.radius + dq.radius) ^ 2 ≤ s ^ 2 :=
    pow_le_pow_left₀ hr0 hrs 2
  have hxlt : |dq.x - dp.x| < s := by
    apply ColorsLevel.abs_lt_of_sq_lt _ _ _ (le_of_lt hs)
    nlinarith [sq_nonneg (dp.y - dq.y)]
  have hylt : |dq.y - dp.y| < s := by
    apply ColorsLevel.abs_lt_of_sq_lt _ _ _ (le_of_lt hs)
    nlinarith [sq_nonneg (dp.x - dq.x)]
  obtain ⟨ex1, ex2⟩ :=
    ColorsLevel.cell_coord_close s dq.x dp.x hs hxq hxp hxlt
  obtain ⟨ey1, ey2⟩ :=
    ColorsLevel.cell_coord_close s dq.y dp.y hs hyq hyp2 hylt
  apply ColorsLevel.adjCount_eq_one_of_close
  · show -1 ≤ (ColorsLevel.cellOf s dq).1 - (ColorsLevel.cellOf s dp).1
    unfold ColorsLevel.cellOf
    dsimp only
    omega
  · show (ColorsLevel.cellOf s dq).1 - (ColorsLevel.cellOf s dp).1 ≤ 1
    unfold ColorsLevel.cellOf
    dsimp only
    omega
  · show -1 ≤ (ColorsLevel.cellOf s dq).2 - (ColorsLevel.cellOf s dp).2
    unfold ColorsLevel.cellOf
    dsimp only
    omega
  · show (ColorsLevel.cellOf s dq).2 - (ColorsLevel.cellOf s dp).2 ≤ 1
    unfold ColorsLevel.cellOf
    dsimp only
    omega

/-- C4 witness: two alive radius-24 dots at (90,50) and (130,50) with cell
size 100: they are 40 apart (in range, 40 < 48) in adjacent cells (0,0) and
(1,0), and the pass tests the pair exactly once. -/
theorem grid_pair_enumeration_witness :
    ColorsLevel.pairCount 100
      [{ x := 90, y := 50, dx := 0, dy := 0, color := 0, radius := 24,
         target := false, alive := true },
       { x := 130, y := 50, dx := 0, dy := 0, color := 1, radius := 24,
         target := true, alive := true }] 0 1 = 1 := by
  have h := grid_pair_enumeration 100
    [{ x := 90, y := 50, dx := 0, dy := 0, color := 0, radius := 24,
       target := false, alive := true },
     { x := 130, y := 50, dx := 0, dy := 0, color := 1, radius := 24,
       target := true, alive := true }] 0 1
    (by norm_num) (by norm_num) (by norm_num)
    (by norm_num [List.getD]) (by norm_num [List.getD]) (by norm_num)
    (by norm_num [List.getD]) (by norm_num [List.getD])
    (by norm_num [List.getD]) (by norm_num [List.getD])
  exact h.2 (by norm_num [List.getD]) (by norm_num [List.getD])
    (by norm_num [List.getD])
